import Mathlib

/-!
Verification of the chunked-transcription pipeline of the ml-service
(`src/ml-service/src/services/transcription.py`,
`src/ml-service/src/services/audio_processor.py`, and the error mapping of
`src/ml-service/src/main.py`).

Shallow embedding conventions:
* Filesystem state is a `Finset TPath` of existing temp files.  The concrete
  file names produced by `Path.with_suffix` / the `_chunk_{i:04d}` format are
  abstracted to the constructors of `TPath` (the naming scheme makes the
  uploaded source, the converted WAV and each chunk pairwise distinct paths);
  `save_upload`, whose claim is about the concrete name, is modelled
  separately over strings.
* External effects that the Python code observes only through success or an
  exception (librosa duration probe, pydub decode, librosa decode,
  `sf.write` of a chunk, the sherpa-onnx recognizer) are oracles carried in
  `PEnv`; an `Except.error` value is the exception detail string.
* Python floats (durations) are modelled as exact rationals, Python ints as
  `Nat`; `str.isalpha` / `str.lower` / `str.strip` are modelled on the
  character ranges the service manipulates (ASCII plus the Cyrillic block).
* Deleting a file is `Finset.erase`: removal of an already-absent path is a
  no-op, and OS-level unlink failures (which the code logs and swallows) have
  no observable effect in the model beyond the file remaining, so cleanup is
  a total function and can never alter the pipeline's result.
-/

/-- Chunk count of `AudioProcessor.split_audio`: `int(np.ceil(total_samples /
chunk_samples))` computed exactly (`numChunks t cs = ⌈t / cs⌉`). -/
def numChunks (totalSamples chunkSamples : Nat) : Nat :=
  (totalSamples + chunkSamples - 1) / chunkSamples

/-- Sample ranges of the chunks produced by `AudioProcessor.split_audio`:
chunk `i` is `y[start:end]` with `start = i * chunk_samples` and
`end = min((i + 1) * chunk_samples, total_samples)`. -/
def chunkRanges (totalSamples chunkSamples : Nat) : List (Nat × Nat) :=
  (List.range (numChunks totalSamples chunkSamples)).map
    (fun i => (i * chunkSamples, min ((i + 1) * chunkSamples) totalSamples))

/-- Python `str.isalpha`, restricted to the scripts the service manipulates:
ASCII letters plus the letters of the Cyrillic block U+0400..U+04FF (the
block minus its non-letter code points U+0482..U+0489). -/
def pyIsAlpha (c : Char) : Bool :=
  (0x41 ≤ c.toNat && c.toNat ≤ 0x5a) || (0x61 ≤ c.toNat && c.toNat ≤ 0x7a) ||
  (0x400 ≤ c.toNat && c.toNat ≤ 0x481) || (0x48a ≤ c.toNat && c.toNat ≤ 0x4ff)

/-- Membership test `"Ѐ" <= c <= "ӿ"` from
`TranscriptionService._detect_language`. -/
def isCyrillicChar (c : Char) : Bool :=
  0x400 ≤ c.toNat && c.toNat ≤ 0x4ff

/-- Embedding of `TranscriptionService._detect_language`: empty text defaults to "en";
otherwise count Cyrillic code points and alphabetic code points; zero
alphabetic defaults to "en"; a Cyrillic ratio strictly above 0.3 gives "ru",
else "en".  The float division/comparison is modelled exactly over `ℚ`. -/
def detectLanguage (text : String) : String :=
  if text = "" then "en"
  else
    let cyrillicCount := (text.toList.filter isCyrillicChar).length
    let totalAlpha := (text.toList.filter pyIsAlpha).length
    if totalAlpha = 0 then "en"
    else if (3 : ℚ) / 10 < (cyrillicCount : ℚ) / (totalAlpha : ℚ) then "ru"
    else "en"

/-- The language heuristic as the spec/claim words it: 'en' when the text has
zero alphabetic code points, 'ru' when the ratio of Cyrillic code points to
alphabetic code points exceeds 0.3, 'en' otherwise. -/
def detectLanguageSpec (text : String) : String :=
  let cyrillicCount := (text.toList.filter isCyrillicChar).length
  let totalAlpha := (text.toList.filter pyIsAlpha).length
  if totalAlpha = 0 then "en"
  else if (3 : ℚ) / 10 < (cyrillicCount : ℚ) / (totalAlpha : ℚ) then "ru"
  else "en"

/-- The heuristic with the ratio test cleared of division (for a positive
alphabetic count, `cyr / alpha > 3/10` iff `3 * alpha < 10 * cyr`); this
form evaluates by kernel reduction, unlike exact `ℚ` division. -/
def detectLanguageNat (text : String) : String :=
  if text = "" then "en"
  else
    let cyrillicCount := (text.toList.filter isCyrillicChar).length
    let totalAlpha := (text.toList.filter pyIsAlpha).length
    if totalAlpha = 0 then "en"
    else if 3 * totalAlpha < 10 * cyrillicCount then "ru"
    else "en"

/-- Python whitespace stripped by `str.strip()` (the ASCII whitespace
characters; the service's texts contain no exotic Unicode whitespace). -/
def pyIsSpace (c : Char) : Bool :=
  c = ' ' || c = '\t' || c = '\n' || c = '\x0d' || c = '\x0b' || c = '\x0c'

/-- Python `str.strip()`: drop leading and trailing whitespace. -/
def pyStrip (s : String) : String :=
  String.mk (((s.toList.dropWhile pyIsSpace).reverse.dropWhile pyIsSpace).reverse)

/-- Python `str.lower()` (ASCII case mapping; file extensions are ASCII). -/
def pyLower (s : String) : String :=
  String.mk (s.toList.map Char.toLower)

/-- Final path component, as `pathlib` sees it (trailing separators are not
modelled; upload filenames do not carry them). -/
def pyBasename (s : String) : String :=
  String.mk ((s.toList.reverse.takeWhile (fun c => c ≠ '/')).reverse)

/-- Embedding of `pathlib.PurePath.suffix`: the part of the final component from its last
dot onward, provided that dot is neither the first nor the last character;
otherwise the empty string. -/
def pySuffix (s : String) : String :=
  let cs := (pyBasename s).toList
  let after := cs.reverse.takeWhile (fun c => c ≠ '.')
  if 0 < after.length ∧ after.length + 1 < cs.length then
    String.mk ('.' :: after.reverse)
  else ""

/-- Embedding of `AudioProcessor.save_upload`: compute the extension from the original
filename (lowercased, defaulting to ".wav" when absent), build the unique
name `f"{uuid4()}{ext}"` (the fresh UUID string is a parameter), write the
bytes read from the file object under `temp_dir / unique_name`, and return
that path.  The store is the temp directory contents as path/bytes pairs.
The `except` branch (re-raising `AudioProcessingError` if the OS write
fails) has no successful outcome and is not modelled. -/
def save_upload (tempDir uuid : String) (content : List Nat) (filename : String)
    (store : List (String × List Nat)) : List (String × List Nat) × String :=
  let ext0 := pyLower (pySuffix filename)
  let ext := if ext0 = "" then ".wav" else ext0
  let uniqueName := uuid ++ ext
  let filePath := tempDir ++ "/" ++ uniqueName
  (store ++ [(filePath, content)], filePath)

/-- Look up the bytes stored at a path (first match wins). -/
def fsLookup (p : String) : List (String × List Nat) → Option (List Nat)
  | [] => none
  | (q, c) :: rest => if q = p then some c else fsLookup p rest

/-- Roles of the temp-file paths a pipeline run touches: the uploaded source
file, the converted WAV (`input.with_suffix(".converted.wav")`) and the chunk
files (`f"{stem}_chunk_{i:04d}.wav"`); the naming scheme makes these pairwise
distinct, which the constructors encode. -/
inductive TPath
  | src
  | conv
  | chunk (i : Nat)
deriving DecidableEq

/-- Temp-directory state: the set of existing files. -/
abbrev FS := Finset TPath

/-- Configuration fields of `Settings` consumed by the pipeline
(`chunk_size_seconds` is bounded 10..300 by the pydantic field, `sample_rate`
defaults to 16000, `max_audio_duration_seconds` defaults to 7200). -/
structure MlSettings where
  chunkSizeSeconds : Nat
  sampleRate : Nat
  maxAudioDurationSeconds : Nat
deriving DecidableEq

/-- The `TranscriptionResult` dataclass.  `processing_time_ms` is wall-clock time
and is modelled as 0. -/
structure TranscriptionResult where
  text : String
  language : String
  duration : ℚ
  chunksProcessed : Nat
  processingTimeMs : Nat
deriving DecidableEq

/-- The exception classes distinguished by `TranscriptionService.transcribe`'s
handlers: `TranscriptionError` (message, code), `AudioProcessingError`, and
any other exception (e.g. the recognizer's `RuntimeError`). -/
inductive PyErr
  | transcriptionError (message : String) (code : String)
  | audioProcessingError (message : String)
  | otherError (message : String)
deriving DecidableEq

/-- Oracles for the external effects of one pipeline run. -/
structure PEnv where
  /-- whether `librosa.get_duration` succeeds. -/
  probeOk : Bool
  /-- detail of the probe failure. -/
  probeErr : String
  /-- the measured duration in seconds. -/
  duration : ℚ
  /-- the pydub decode/convert/export path succeeds. -/
  pydubOk : Bool
  /-- the librosa fallback decode succeeds. -/
  librosaOk : Bool
  /-- detail of the librosa fallback failure (`e2` in the code). -/
  librosaErr : String
  /-- whether `librosa.load` inside `split_audio` succeeds. -/
  loadOk : Bool
  /-- detail of that load failure. -/
  loadErr : String
  /-- the value `len(y)`: total samples of the canonical audio. -/
  totalSamples : Nat
  /-- whether `sf.write` of chunk `i` succeeds. -/
  writeOk : Nat → Bool
  /-- detail of a chunk-write failure. -/
  writeErr : Nat → String
  /-- behaviour of `asr_model.transcribe` on a file: text, or the exception detail. -/
  asr : TPath → Except String String

/-- The two transcoding strategies of `AudioProcessor.convert_to_wav`. -/
inductive ConvStrategy
  | pydub
  | librosa
deriving DecidableEq

/-- Embedding of `AudioProcessor.convert_to_wav`: try pydub; on any failure fall back to
librosa; if both fail raise `AudioProcessingError` carrying the second
failure's detail.  Also returns the list of strategies attempted. -/
def convert_to_wav (env : PEnv) (fs : FS) :
    Except PyErr TPath × FS × List ConvStrategy :=
  if env.pydubOk then
    (Except.ok TPath.conv, insert TPath.conv fs, [ConvStrategy.pydub])
  else if env.librosaOk then
    (Except.ok TPath.conv, insert TPath.conv fs,
      [ConvStrategy.pydub, ConvStrategy.librosa])
  else
    (Except.error (PyErr.audioProcessingError
        ("Failed to convert audio: " ++ env.librosaErr)),
      fs, [ConvStrategy.pydub, ConvStrategy.librosa])

/-- The `for chunk in chunks: chunk.unlink()` loop of `split_audio`'s
exception handler (each unlink failure is swallowed; erasing an absent
element is a no-op). -/
def eraseAll (l : List TPath) (fs : FS) : FS :=
  l.foldl (fun s p => s.erase p) fs

/-- Insert a list of paths in order (used to describe chunk creation). -/
def insertAll (l : List TPath) (fs : FS) : FS :=
  l.foldl (fun s p => insert p s) fs

/-- The chunk-writing loop of `AudioProcessor.split_audio`: for each index
`i` in `range(num_chunks)` write chunk `i` and append its path; on a write
failure delete every chunk created so far in this call and report the failing
index. -/
def splitGo (writeOk : Nat → Bool) : Nat → Nat → List TPath → FS →
    Except Nat (List TPath) × FS
  | 0, _, created, fs => (Except.ok created, fs)
  | rem + 1, i, created, fs =>
    if writeOk i then
      splitGo writeOk rem (i + 1) (created ++ [TPath.chunk i])
        (insert (TPath.chunk i) fs)
    else
      (Except.error i, eraseAll created fs)

/-- Embedding of `AudioProcessor.split_audio`: load the canonical audio, compute the chunk
count, materialize the chunks in index order; any failure (load or write)
raises `AudioProcessingError` after the partial-chunk cleanup. -/
def split_audio (env : PEnv) (S : MlSettings) (fs : FS) :
    Except PyErr (List TPath) × FS :=
  if env.loadOk then
    match splitGo env.writeOk
        (numChunks env.totalSamples (S.chunkSizeSeconds * S.sampleRate))
        0 [] fs with
    | (Except.ok created, fs2) => (Except.ok created, fs2)
    | (Except.error i, fs2) =>
      (Except.error (PyErr.audioProcessingError
          ("Failed to split audio: " ++ env.writeErr i)), fs2)
  else
    (Except.error (PyErr.audioProcessingError
        ("Failed to split audio: " ++ env.loadErr)), fs)

/-- Embedding of `AudioProcessor.cleanup_file`: unlink if the file exists; failures and
absent paths are swallowed. -/
def cleanup_file (p : TPath) (fs : FS) : FS :=
  if p ∈ fs then fs.erase p else fs

/-- Embedding of `AudioProcessor.cleanup_files`: cleanup each path in order. -/
def cleanup_files (l : List TPath) (fs : FS) : FS :=
  l.foldl (fun s p => cleanup_file p s) fs

/-- The per-chunk recognition loop of `TranscriptionService.transcribe`:
transcribe each chunk in order, appending non-empty texts; a recognizer
exception aborts the loop.  Also records the sequence of recognizer calls. -/
def recognizeChunks (asr : TPath → Except String String) :
    List TPath → List String → List TPath →
    Except String (List String) × List TPath
  | [], texts, calls => (Except.ok texts, calls)
  | c :: rest, texts, calls =>
    match asr c with
    | Except.ok t =>
      recognizeChunks asr rest (if t = "" then texts else texts ++ [t])
        (calls ++ [c])
    | Except.error e => (Except.error e, calls ++ [c])

/-- The assignment `detected_language = self._detect_language(full_text) if not language
else language` (Python truthiness: `None` and `""` fall back to the
heuristic). -/
def pipelineLanguage (language : Option String) (fullText : String) : String :=
  match language with
  | none => detectLanguage fullText
  | some l => if l = "" then detectLanguage fullText else l

deriving instance DecidableEq for Except

/-- Outcome of the `try` body of `transcribe` before the `except` mapping and
the `finally` cleanup: raw result, filesystem, registered `temp_files`, and
the recognizer call trace. -/
structure BodyOut where
  res : Except PyErr TranscriptionResult
  fs : FS
  tempFiles : List TPath
  asrCalls : List TPath
deriving DecidableEq

/-- The part of `transcribe`'s body after a successful conversion: decide
chunking by `duration > chunk_size_seconds`, then either split + per-chunk
loop + `" ".join`, or a single direct recognition; build the result with
stripped text and the language rule. -/
def transcribePostConv (env : PEnv) (S : MlSettings) (language : Option String)
    (convPath : TPath) (fs1 : FS) : BodyOut :=
  if env.duration > (S.chunkSizeSeconds : ℚ) then
    match split_audio env S fs1 with
    | (Except.error e, fs2) => ⟨Except.error e, fs2, [convPath], []⟩
    | (Except.ok chunks, fs2) =>
      match recognizeChunks env.asr chunks [] [] with
      | (Except.error e, calls) =>
        ⟨Except.error (PyErr.otherError e), fs2, convPath :: chunks, calls⟩
      | (Except.ok texts, calls) =>
        ⟨Except.ok
          { text := pyStrip (String.intercalate " " texts),
            language := pipelineLanguage language (String.intercalate " " texts),
            duration := env.duration,
            chunksProcessed := chunks.length,
            processingTimeMs := 0 },
          fs2, convPath :: chunks, calls⟩
  else
    match env.asr convPath with
    | Except.error e => ⟨Except.error (PyErr.otherError e), fs1, [convPath], [convPath]⟩
    | Except.ok t =>
      ⟨Except.ok
        { text := pyStrip t,
          language := pipelineLanguage language t,
          duration := env.duration,
          chunksProcessed := 1,
          processingTimeMs := 0 },
        fs1, [convPath], [convPath]⟩

/-- The `try` body of `TranscriptionService.transcribe`: probe the duration,
gate it (too long first, then too short), convert to WAV (registering the
artifact), then `transcribePostConv`. -/
def transcribeBody (env : PEnv) (S : MlSettings) (language : Option String)
    (fs0 : FS) : BodyOut :=
  if env.probeOk then
    if env.duration > (S.maxAudioDurationSeconds : ℚ) then
      ⟨Except.error (PyErr.transcriptionError
          ("Audio too long. Maximum duration is " ++
            toString (S.maxAudioDurationSeconds / 60) ++ " minutes.")
          "AUDIO_TOO_LONG"), fs0, [], []⟩
    else if env.duration < 1 / 10 then
      ⟨Except.error (PyErr.transcriptionError
          "Audio file appears to be empty or too short."
          "AUDIO_TOO_SHORT"), fs0, [], []⟩
    else
      match convert_to_wav env fs0 with
      | (Except.error e, fs1, _) => ⟨Except.error e, fs1, [], []⟩
      | (Except.ok p, fs1, _) => transcribePostConv env S language p fs1
  else
    ⟨Except.error (PyErr.audioProcessingError
        ("Failed to get audio duration: " ++ env.probeErr)), fs0, [], []⟩

/-- The `except` clauses of `transcribe`: `TranscriptionError` passes
through; `AudioProcessingError` becomes code `AUDIO_PROCESSING_ERROR`; any
other exception becomes code `TRANSCRIPTION_FAILED` with the generic message
prefix. -/
def mapPipelineErr :
    Except PyErr TranscriptionResult → Except PyErr TranscriptionResult
  | Except.ok r => Except.ok r
  | Except.error (PyErr.transcriptionError m c) =>
    Except.error (PyErr.transcriptionError m c)
  | Except.error (PyErr.audioProcessingError m) =>
    Except.error (PyErr.transcriptionError m "AUDIO_PROCESSING_ERROR")
  | Except.error (PyErr.otherError m) =>
    Except.error (PyErr.transcriptionError
      ("Failed to transcribe audio: " ++ m) "TRANSCRIPTION_FAILED")

/-- Observable outcome of one `transcribe` call. -/
structure RunOut where
  result : Except PyErr TranscriptionResult
  fs : FS
  asrCalls : List TPath
deriving DecidableEq

/-- Embedding of `TranscriptionService.transcribe`: run the body, apply the `except`
mapping, and unconditionally run the `finally` cleanup of the registered
temp files. -/
def transcribe (env : PEnv) (S : MlSettings) (language : Option String)
    (fs0 : FS) : RunOut :=
  let b := transcribeBody env S language fs0
  { result := mapPipelineErr b.res,
    fs := cleanup_files b.tempFiles b.fs,
    asrCalls := b.asrCalls }

/-- HTTP error body fields produced by `main.transcribe_audio`'s exception
handlers: status code, error code, message, optional details. -/
structure ErrorBody where
  status : Nat
  code : String
  message : String
  details : Option String
deriving DecidableEq

/-- The three `except` blocks of `main.transcribe_audio`:
`TranscriptionError` is surfaced as 500 with its own code and message;
`AudioProcessingError` as 400 `AUDIO_PROCESSING_ERROR`; anything else as 500
`INTERNAL_ERROR` with a generic message plus the detail string. -/
def errorResponse : PyErr → ErrorBody
  | PyErr.transcriptionError m c => ⟨500, c, m, none⟩
  | PyErr.audioProcessingError m => ⟨400, "AUDIO_PROCESSING_ERROR", m, none⟩
  | PyErr.otherError m =>
    ⟨500, "INTERNAL_ERROR", "Failed to transcribe audio", some m⟩

/-- Settings with the default configuration values (chunk 60s, 16 kHz,
maximum duration 7200s). -/
def S0 : MlSettings :=
  { chunkSizeSeconds := 60, sampleRate := 16000, maxAudioDurationSeconds := 7200 }

/-- Concrete recognizer oracle used by the witnesses: chunk texts "hello",
"" and "world"; anything else transcribes to "hi". -/
def asrW : TPath → Except String String := fun p =>
  match p with
  | TPath.chunk 0 => Except.ok "hello"
  | TPath.chunk 1 => Except.ok ""
  | TPath.chunk 2 => Except.ok "world"
  | _ => Except.ok "hi"

/-- The chunk texts delivered by `asrW`, as a function of the index. -/
def tsW : Nat → String := fun i =>
  match i with
  | 0 => "hello"
  | 1 => ""
  | 2 => "world"
  | _ => "hi"

/-- A run in which everything succeeds and the 5-second audio is transcribed
directly (no chunking). -/
def envDirect : PEnv :=
  { probeOk := true, probeErr := "", duration := 5,
    pydubOk := true, librosaOk := true, librosaErr := "",
    loadOk := true, loadErr := "", totalSamples := 80000,
    writeOk := fun _ => true, writeErr := fun _ => "", asr := asrW }

/-- A run in which everything succeeds and the 125-second audio
(2 000 000 samples at 16 kHz) is split into chunks. -/
def envChunked : PEnv :=
  { envDirect with duration := 125, totalSamples := 2000000 }

/-- A run in which both transcoding strategies fail. -/
def envConvFail : PEnv :=
  { envDirect with
    pydubOk := false
    librosaOk := false
    librosaErr := "codec error" }

/-- A run in which the recognizer raises on every file. -/
def envAsrFail : PEnv :=
  { envDirect with asr := fun _ => Except.error "boom" }

/-- A chunked run in which writing chunk 2 fails. -/
def envSplitFail : PEnv :=
  { envChunked with
    writeOk := fun j => j != 2
    writeErr := fun _ => "disk full" }

/-- A run whose measured duration is 0.05 seconds. -/
def envShort : PEnv :=
  { envDirect with duration := 1 / 20 }

/-- A run whose measured duration is 9000 seconds. -/
def envLong : PEnv :=
  { envDirect with duration := 9000 }

/-- Membership in `insertAll`. -/
theorem mem_insertAll (x : TPath) (l : List TPath) :
    ∀ fs : FS, (x ∈ insertAll l fs ↔ x ∈ l ∨ x ∈ fs) := by
  induction l with
  | nil => intro fs; simp [insertAll]
  | cons a l ih =>
    intro fs
    have h : insertAll (a :: l) fs = insertAll l (insert a fs) := rfl
    rw [h, ih (insert a fs)]
    simp [Finset.mem_insert]
    tauto

/-- Membership in `eraseAll`. -/
theorem mem_eraseAll (x : TPath) (l : List TPath) :
    ∀ fs : FS, (x ∈ eraseAll l fs ↔ x ∈ fs ∧ x ∉ l) := by
  induction l with
  | nil => intro fs; simp [eraseAll]
  | cons a l ih =>
    intro fs
    have h : eraseAll (a :: l) fs = eraseAll l (fs.erase a) := rfl
    rw [h, ih (fs.erase a)]
    simp [Finset.mem_erase]
    tauto

/-- The function `cleanup_file` is plain erasure: the existence check only avoids an
unlink of an absent path, which is a no-op on the set. -/
theorem cleanup_file_eq_erase (p : TPath) (fs : FS) :
    cleanup_file p fs = fs.erase p := by
  unfold cleanup_file
  split
  · rfl
  · exact (Finset.erase_eq_of_not_mem (by assumption)).symm

/-- The function `cleanup_files` erases every listed path. -/
theorem cleanup_files_eq_eraseAll (l : List TPath) :
    ∀ fs : FS, cleanup_files l fs = eraseAll l fs := by
  induction l with
  | nil => intro fs; rfl
  | cons a l ih =>
    intro fs
    have h1 : cleanup_files (a :: l) fs = cleanup_files l (cleanup_file a fs) := rfl
    have h2 : eraseAll (a :: l) fs = eraseAll l (fs.erase a) := rfl
    rw [h1, h2, cleanup_file_eq_erase, ih]

/-- Membership after `cleanup_files`. -/
theorem mem_cleanup_files (x : TPath) (l : List TPath) (fs : FS) :
    x ∈ cleanup_files l fs ↔ x ∈ fs ∧ x ∉ l := by
  rw [cleanup_files_eq_eraseAll]
  exact mem_eraseAll x l fs

/-- The outcome of the chunk-writing loop does not depend on the
filesystem. -/
theorem splitGo_fst_indep (w : Nat → Bool) :
    ∀ (rem i : Nat) (created : List TPath) (fs fs' : FS),
      (splitGo w rem i created fs).1 = (splitGo w rem i created fs').1 := by
  intro rem
  induction rem with
  | zero => intro i created fs fs'; rfl
  | succ r ih =>
    intro i created fs fs'
    by_cases h : w i = true
    · simp only [splitGo, h, if_true]
      exact ih (i + 1) (created ++ [TPath.chunk i]) _ _
    · simp [splitGo, h]

/-- When every write in the window succeeds, the loop creates exactly the
chunks of `range' i rem`, in order. -/
theorem splitGo_all_ok (w : Nat → Bool) :
    ∀ (rem i : Nat) (created : List TPath) (fs : FS),
      (∀ j, i ≤ j → j < i + rem → w j = true) →
      splitGo w rem i created fs =
        (Except.ok (created ++ (List.range' i rem).map TPath.chunk),
          insertAll ((List.range' i rem).map TPath.chunk) fs) := by
  intro rem
  induction rem with
  | zero => intro i created fs h; simp [splitGo, insertAll]
  | succ r ih =>
    intro i created fs h
    have hwi : w i = true := h i le_rfl (by omega)
    have hrec := ih (i + 1) (created ++ [TPath.chunk i]) (insert (TPath.chunk i) fs)
      (fun j h1 h2 => h j (by omega) (by omega))
    simp only [splitGo, hwi, if_true, hrec, List.range'_succ, List.map_cons]
    have h2 : insertAll (TPath.chunk i :: (List.range' (i + 1) r).map TPath.chunk) fs =
        insertAll ((List.range' (i + 1) r).map TPath.chunk) (insert (TPath.chunk i) fs) := rfl
    rw [h2]
    simp

/-- When write `i + m` is the first failing write, the loop deletes the `m`
chunks it created and reports index `i + m`. -/
theorem splitGo_first_fail (w : Nat → Bool) :
    ∀ (m rem i : Nat) (created : List TPath) (fs : FS),
      m < rem → w (i + m) = false → (∀ j, j < m → w (i + j) = true) →
      splitGo w rem i created fs =
        (Except.error (i + m),
          eraseAll (created ++ (List.range' i m).map TPath.chunk)
            (insertAll ((List.range' i m).map TPath.chunk) fs)) := by
  intro m
  induction m with
  | zero =>
    intro rem i created fs hm hw _
    cases rem with
    | zero => omega
    | succ r =>
      have hwi : w i = false := by simpa using hw
      simp [splitGo, hwi, insertAll]
  | succ m ih =>
    intro rem i created fs hm hw hmin
    cases rem with
    | zero => omega
    | succ r =>
      have hwi : w i = true := by simpa using hmin 0 (by omega)
      have hadd : i + 1 + m = i + (m + 1) := by omega
      have hrec := ih r (i + 1) (created ++ [TPath.chunk i]) (insert (TPath.chunk i) fs)
        (by omega) (by rw [hadd]; exact hw)
        (fun j hj => by
          have h3 : i + 1 + j = i + (j + 1) := by omega
          rw [h3]; exact hmin (j + 1) (by omega))
      simp only [splitGo, hwi, if_true, hrec, List.range'_succ, List.map_cons]
      have h2 : insertAll (TPath.chunk i :: (List.range' (i + 1) m).map TPath.chunk) fs =
          insertAll ((List.range' (i + 1) m).map TPath.chunk) (insert (TPath.chunk i) fs) := rfl
      rw [h2, hadd]
      simp

/-- When the recognizer succeeds on every chunk, the loop returns the
non-empty texts in order and calls the recognizer on each chunk in order. -/
theorem recognizeChunks_all_ok (asr : TPath → Except String String)
    (textOf : TPath → String) :
    ∀ (l : List TPath) (texts : List String) (calls : List TPath),
      (∀ c ∈ l, asr c = Except.ok (textOf c)) →
      recognizeChunks asr l texts calls =
        (Except.ok (texts ++ (l.map textOf).filter (fun t => t ≠ "")),
          calls ++ l) := by
  intro l
  induction l with
  | nil => intro texts calls _; simp [recognizeChunks]
  | cons c l ih =>
    intro texts calls h
    have hc := h c (List.mem_cons_self c l)
    simp only [recognizeChunks, hc]
    rw [ih _ _ (fun d hd => h d (List.mem_cons_of_mem c hd))]
    by_cases ht : textOf c = ""
    · simp [ht, List.filter_cons]
    · simp [ht, List.filter_cons]

/-- When the recognizer succeeds on a prefix and then raises, the loop stops
at the raising chunk and propagates the exception. -/
theorem recognizeChunks_err (asr : TPath → Except String String) :
    ∀ (l1 : List TPath) (c : TPath) (l2 : List TPath) (texts : List String)
      (calls : List TPath) (e : String),
      (∀ d ∈ l1, ∃ t, asr d = Except.ok t) → asr c = Except.error e →
      recognizeChunks asr (l1 ++ c :: l2) texts calls =
        (Except.error e, calls ++ l1 ++ [c]) := by
  intro l1
  induction l1 with
  | nil =>
    intro c l2 texts calls e _ hc
    simp [recognizeChunks, hc]
  | cons d l1 ih =>
    intro c l2 texts calls e h hc
    obtain ⟨t, ht⟩ := h d (List.mem_cons_self d l1)
    simp only [List.cons_append, recognizeChunks, ht]
    rw [List.append_eq]
    rw [ih c l2 _ _ e (fun d' hd' => h d' (List.mem_cons_of_mem d hd')) hc]
    simp

/-- The split `split_audio` succeeds when the load and every chunk write succeed,
producing the chunk files in index order. -/
theorem split_audio_ok (env : PEnv) (S : MlSettings) (fs : FS)
    (hload : env.loadOk = true)
    (hw : ∀ j, j < numChunks env.totalSamples (S.chunkSizeSeconds * S.sampleRate) →
      env.writeOk j = true) :
    split_audio env S fs =
      (Except.ok ((List.range (numChunks env.totalSamples
          (S.chunkSizeSeconds * S.sampleRate))).map TPath.chunk),
        insertAll ((List.range (numChunks env.totalSamples
          (S.chunkSizeSeconds * S.sampleRate))).map TPath.chunk) fs) := by
  unfold split_audio
  rw [if_pos hload]
  rw [splitGo_all_ok env.writeOk
      (numChunks env.totalSamples (S.chunkSizeSeconds * S.sampleRate)) 0 [] fs
      (fun j h1 h2 => hw j (by omega))]
  rw [List.range_eq_range']
  simp

/-- When chunk `k` is the first write failure, `split_audio` deletes the `k`
chunks it created (restoring the filesystem when the chunk paths were fresh)
and raises `AudioProcessingError` with the write failure's detail. -/
theorem split_audio_fail_restores (env : PEnv) (S : MlSettings) (fs : FS)
    (hload : env.loadOk = true) (k : Nat)
    (hk : k < numChunks env.totalSamples (S.chunkSizeSeconds * S.sampleRate))
    (hwk : env.writeOk k = false)
    (hmin : ∀ j, j < k → env.writeOk j = true)
    (hfresh : ∀ j, TPath.chunk j ∉ fs) :
    split_audio env S fs =
      (Except.error (PyErr.audioProcessingError
        ("Failed to split audio: " ++ env.writeErr k)), fs) := by
  unfold split_audio
  rw [if_pos hload]
  rw [splitGo_first_fail env.writeOk k
      (numChunks env.totalSamples (S.chunkSizeSeconds * S.sampleRate)) 0 [] fs
      hk (by simpa using hwk) (fun j hj => by simpa using hmin j hj)]
  have hrestore :
      eraseAll ([] ++ (List.range' 0 k).map TPath.chunk)
        (insertAll ((List.range' 0 k).map TPath.chunk) fs) = fs := by
    ext x
    rw [mem_eraseAll, mem_insertAll]
    simp only [List.nil_append]
    constructor
    · rintro ⟨h1 | h1, h2⟩
      · exact absurd h1 h2
      · exact h1
    · intro hx
      refine ⟨Or.inr hx, ?_⟩
      intro hmem
      obtain ⟨j, _, hj⟩ := List.mem_map.mp hmem
      exact hfresh j (hj ▸ hx)
  rw [hrestore]
  simp

/-- Direct (non-chunked) success: one recognizer call on the converted file,
`chunks_processed = 1`. -/
theorem postConv_direct_ok (env : PEnv) (S : MlSettings) (lang : Option String)
    (fs1 : FS) (t0 : String)
    (hdir : ¬ env.duration > (S.chunkSizeSeconds : ℚ))
    (hasr : env.asr TPath.conv = Except.ok t0) :
    transcribePostConv env S lang TPath.conv fs1 =
      ⟨Except.ok ⟨pyStrip t0, pipelineLanguage lang t0, env.duration, 1, 0⟩,
        fs1, [TPath.conv], [TPath.conv]⟩ := by
  unfold transcribePostConv
  rw [if_neg hdir, hasr]

/-- Direct (non-chunked) path with a recognizer exception. -/
theorem postConv_direct_err (env : PEnv) (S : MlSettings) (lang : Option String)
    (fs1 : FS) (e : String)
    (hdir : ¬ env.duration > (S.chunkSizeSeconds : ℚ))
    (hasr : env.asr TPath.conv = Except.error e) :
    transcribePostConv env S lang TPath.conv fs1 =
      ⟨Except.error (PyErr.otherError e), fs1, [TPath.conv], [TPath.conv]⟩ := by
  unfold transcribePostConv
  rw [if_neg hdir, hasr]

/-- Chunked success: the chunk files are produced and recognized in index
order and the non-empty chunk texts are joined with single spaces. -/
theorem postConv_chunked_ok (env : PEnv) (S : MlSettings) (lang : Option String)
    (fs1 : FS) (ts : Nat → String)
    (hch : env.duration > (S.chunkSizeSeconds : ℚ))
    (hload : env.loadOk = true)
    (hw : ∀ j, env.writeOk j = true)
    (hasr : ∀ i, env.asr (TPath.chunk i) = Except.ok (ts i)) :
    transcribePostConv env S lang TPath.conv fs1 =
      ⟨Except.ok
        ⟨pyStrip (String.intercalate " "
            (((List.range (numChunks env.totalSamples
              (S.chunkSizeSeconds * S.sampleRate))).map ts).filter (fun t => t ≠ ""))),
          pipelineLanguage lang (String.intercalate " "
            (((List.range (numChunks env.totalSamples
              (S.chunkSizeSeconds * S.sampleRate))).map ts).filter (fun t => t ≠ ""))),
          env.duration,
          numChunks env.totalSamples (S.chunkSizeSeconds * S.sampleRate), 0⟩,
        insertAll ((List.range (numChunks env.totalSamples
          (S.chunkSizeSeconds * S.sampleRate))).map TPath.chunk) fs1,
        TPath.conv :: (List.range (numChunks env.totalSamples
          (S.chunkSizeSeconds * S.sampleRate))).map TPath.chunk,
        (List.range (numChunks env.totalSamples
          (S.chunkSizeSeconds * S.sampleRate))).map TPath.chunk⟩ := by
  unfold transcribePostConv
  rw [if_pos hch]
  rw [split_audio_ok env S fs1 hload (fun j _ => hw j)]
  dsimp only
  rw [recognizeChunks_all_ok env.asr
      (fun p => match p with | TPath.chunk i => ts i | _ => "")
      ((List.range (numChunks env.totalSamples
        (S.chunkSizeSeconds * S.sampleRate))).map TPath.chunk) [] []
      (by
        intro c hcmem
        obtain ⟨j, _, hj⟩ := List.mem_map.mp hcmem
        rw [← hj]
        exact hasr j)]
  have hcomp : ((fun p => match p with | TPath.chunk i => ts i | _ => "") ∘ TPath.chunk) = ts :=
    funext fun j => rfl
  simp [List.map_map, hcomp]

/-- Chunked path with the canonical-audio load failing. -/
theorem postConv_load_fail (env : PEnv) (S : MlSettings) (lang : Option String)
    (fs1 : FS)
    (hch : env.duration > (S.chunkSizeSeconds : ℚ))
    (hload : env.loadOk = false) :
    transcribePostConv env S lang TPath.conv fs1 =
      ⟨Except.error (PyErr.audioProcessingError
          ("Failed to split audio: " ++ env.loadErr)),
        fs1, [TPath.conv], []⟩ := by
  unfold transcribePostConv
  rw [if_pos hch]
  unfold split_audio
  rw [if_neg (by simp [hload])]

/-- Chunked path with the first chunk-write failure at index `k`: the split
deletes its partial chunks before the error propagates. -/
theorem postConv_split_fail (env : PEnv) (S : MlSettings) (lang : Option String)
    (fs1 : FS) (k : Nat)
    (hch : env.duration > (S.chunkSizeSeconds : ℚ))
    (hload : env.loadOk = true)
    (hk : k < numChunks env.totalSamples (S.chunkSizeSeconds * S.sampleRate))
    (hwk : env.writeOk k = false)
    (hmin : ∀ j, j < k → env.writeOk j = true)
    (hfresh : ∀ j, TPath.chunk j ∉ fs1) :
    transcribePostConv env S lang TPath.conv fs1 =
      ⟨Except.error (PyErr.audioProcessingError
          ("Failed to split audio: " ++ env.writeErr k)),
        fs1, [TPath.conv], []⟩ := by
  unfold transcribePostConv
  rw [if_pos hch]
  rw [split_audio_fail_restores env S fs1 hload k hk hwk hmin hfresh]

/-- Chunked path in which the recognizer succeeds on chunks `0..k-1` and
raises on chunk `k`: the loop stops there and the exception propagates. -/
theorem postConv_chunked_asr_err (env : PEnv) (S : MlSettings)
    (lang : Option String) (fs1 : FS) (ts : Nat → String) (k : Nat) (e : String)
    (hch : env.duration > (S.chunkSizeSeconds : ℚ))
    (hload : env.loadOk = true)
    (hw : ∀ j, env.writeOk j = true)
    (hpre : ∀ i, i < k → env.asr (TPath.chunk i) = Except.ok (ts i))
    (hk : k < numChunks env.totalSamples (S.chunkSizeSeconds * S.sampleRate))
    (herr : env.asr (TPath.chunk k) = Except.error e) :
    transcribePostConv env S lang TPath.conv fs1 =
      ⟨Except.error (PyErr.otherError e),
        insertAll ((List.range (numChunks env.totalSamples
          (S.chunkSizeSeconds * S.sampleRate))).map TPath.chunk) fs1,
        TPath.conv :: (List.range (numChunks env.totalSamples
          (S.chunkSizeSeconds * S.sampleRate))).map TPath.chunk,
        (List.range (k + 1)).map TPath.chunk⟩ := by
  unfold transcribePostConv
  rw [if_pos hch]
  rw [split_audio_ok env S fs1 hload (fun j _ => hw j)]
  dsimp only
  have hdecomp : (List.range (numChunks env.totalSamples
      (S.chunkSizeSeconds * S.sampleRate))).map TPath.chunk =
      ((List.range k).map TPath.chunk) ++ TPath.chunk k ::
        ((List.range' (k + 1) (numChunks env.totalSamples
          (S.chunkSizeSeconds * S.sampleRate) - k - 1)).map TPath.chunk) := by
    have happ := List.range'_append 0 k
      (numChunks env.totalSamples (S.chunkSizeSeconds * S.sampleRate) - k) 1
    have h1 : 0 + 1 * k = k := by omega
    have h2 : numChunks env.totalSamples (S.chunkSizeSeconds * S.sampleRate) - k +
        k = numChunks env.totalSamples (S.chunkSizeSeconds * S.sampleRate) := by
      omega
    rw [h1, h2] at happ
    have hsucc : List.range' k
        (numChunks env.totalSamples (S.chunkSizeSeconds * S.sampleRate) - k) =
        k :: List.range' (k + 1)
          (numChunks env.totalSamples (S.chunkSizeSeconds * S.sampleRate) - k - 1) := by
      have h3 : numChunks env.totalSamples (S.chunkSizeSeconds * S.sampleRate) - k =
          (numChunks env.totalSamples (S.chunkSizeSeconds * S.sampleRate) - k - 1) + 1 := by
        omega
      conv_lhs => rw [h3]
      rw [List.range'_succ]
    rw [List.range_eq_range', ← happ, hsucc]
    simp [List.range_eq_range']
  rw [hdecomp]
  rw [recognizeChunks_err env.asr ((List.range k).map TPath.chunk) (TPath.chunk k)
      _ [] [] e
      (fun d hd => by
        obtain ⟨j, hj1, hj2⟩ := List.mem_map.mp hd
        exact ⟨ts j, by rw [← hj2]; exact hpre j (List.mem_range.mp hj1)⟩)
      herr]
  have hcalls : ((List.range k).map TPath.chunk) ++ [TPath.chunk k] =
      (List.range (k + 1)).map TPath.chunk := by
    rw [List.range_succ, List.map_append]
    simp
  rw [← hdecomp]
  simp [hcalls]

/-- Whatever the oracles do, the post-conversion phase ends with the
filesystem holding exactly its entry state plus the converted file; cleaning
up its registered temp files therefore restores the entry state minus the
converted file.  Requires the chunk paths to be fresh. -/
theorem postConv_cleanup (env : PEnv) (S : MlSettings) (lang : Option String)
    (fs1 : FS) (hfresh : ∀ i, TPath.chunk i ∉ fs1) :
    cleanup_files (transcribePostConv env S lang TPath.conv fs1).tempFiles
      (transcribePostConv env S lang TPath.conv fs1).fs = fs1.erase TPath.conv := by
  by_cases hch : env.duration > (S.chunkSizeSeconds : ℚ)
  · cases hload : env.loadOk with
    | false =>
      rw [postConv_load_fail env S lang fs1 hch hload]
      rw [cleanup_files_eq_eraseAll]
      rfl
    | true =>
      by_cases hall : ∀ j, j < numChunks env.totalSamples
          (S.chunkSizeSeconds * S.sampleRate) → env.writeOk j = true
      · have hclean : cleanup_files
            (TPath.conv :: (List.range (numChunks env.totalSamples
              (S.chunkSizeSeconds * S.sampleRate))).map TPath.chunk)
            (insertAll ((List.range (numChunks env.totalSamples
              (S.chunkSizeSeconds * S.sampleRate))).map TPath.chunk) fs1) =
            fs1.erase TPath.conv := by
          rw [cleanup_files_eq_eraseAll]
          ext x
          have h1 : eraseAll (TPath.conv :: (List.range (numChunks env.totalSamples
              (S.chunkSizeSeconds * S.sampleRate))).map TPath.chunk)
              (insertAll ((List.range (numChunks env.totalSamples
                (S.chunkSizeSeconds * S.sampleRate))).map TPath.chunk) fs1) =
              eraseAll ((List.range (numChunks env.totalSamples
                (S.chunkSizeSeconds * S.sampleRate))).map TPath.chunk)
              ((insertAll ((List.range (numChunks env.totalSamples
                (S.chunkSizeSeconds * S.sampleRate))).map TPath.chunk) fs1).erase
                TPath.conv) := rfl
          rw [h1, mem_eraseAll, Finset.mem_erase, mem_insertAll, Finset.mem_erase]
          constructor
          · rintro ⟨⟨hne, h2 | h2⟩, h3⟩
            · exact absurd h2 h3
            · exact ⟨hne, h2⟩
          · rintro ⟨hne, hmem⟩
            refine ⟨⟨hne, Or.inr hmem⟩, ?_⟩
            intro hx
            obtain ⟨j, _, hj⟩ := List.mem_map.mp hx
            exact hfresh j (hj ▸ hmem)
        unfold transcribePostConv
        rw [if_pos hch, split_audio_ok env S fs1 hload hall]
        dsimp only
        rcases hrec : recognizeChunks env.asr
            ((List.range (numChunks env.totalSamples
              (S.chunkSizeSeconds * S.sampleRate))).map TPath.chunk) [] []
          with ⟨res, calls⟩
        cases res with
        | error e => exact hclean
        | ok texts => exact hclean
      · push_neg at hall
        obtain ⟨j0, hj0n, hj0⟩ := hall
        have hex : ∃ j, env.writeOk j = false := ⟨j0, by simpa using hj0⟩
        have hwk : env.writeOk (Nat.find hex) = false := Nat.find_spec hex
        have hkn : Nat.find hex < numChunks env.totalSamples
            (S.chunkSizeSeconds * S.sampleRate) :=
          lt_of_le_of_lt (Nat.find_min' hex (by simpa using hj0)) hj0n
        have hmin : ∀ j, j < Nat.find hex → env.writeOk j = true := by
          intro j hj
          have hnot := Nat.find_min hex hj
          cases hwj : env.writeOk j with
          | false => exact absurd hwj hnot
          | true => rfl
        rw [postConv_split_fail env S lang fs1 (Nat.find hex) hch hload hkn hwk
            hmin hfresh]
        rw [cleanup_files_eq_eraseAll]
        rfl
  · cases hasr : env.asr TPath.conv with
    | error e =>
      rw [postConv_direct_err env S lang fs1 e hch hasr]
      rw [cleanup_files_eq_eraseAll]
      rfl
    | ok t =>
      rw [postConv_direct_ok env S lang fs1 t hch hasr]
      rw [cleanup_files_eq_eraseAll]
      rfl

/-- The result, registered temp files and recognizer calls of the
post-conversion phase do not depend on the filesystem contents. -/
theorem postConv_indep (env : PEnv) (S : MlSettings) (lang : Option String)
    (a b : FS) :
    (transcribePostConv env S lang TPath.conv a).res =
        (transcribePostConv env S lang TPath.conv b).res ∧
      (transcribePostConv env S lang TPath.conv a).tempFiles =
        (transcribePostConv env S lang TPath.conv b).tempFiles ∧
      (transcribePostConv env S lang TPath.conv a).asrCalls =
        (transcribePostConv env S lang TPath.conv b).asrCalls := by
  unfold transcribePostConv
  by_cases hch : env.duration > (S.chunkSizeSeconds : ℚ)
  · simp only [if_pos hch]
    unfold split_audio
    cases hload : env.loadOk with
    | false => simp [hload]
    | true =>
      simp only [hload, if_true]
      have hind := splitGo_fst_indep env.writeOk
        (numChunks env.totalSamples (S.chunkSizeSeconds * S.sampleRate)) 0 [] a b
      rcases hA : splitGo env.writeOk
          (numChunks env.totalSamples (S.chunkSizeSeconds * S.sampleRate)) 0 [] a
        with ⟨resA, fsA⟩
      rcases hB : splitGo env.writeOk
          (numChunks env.totalSamples (S.chunkSizeSeconds * S.sampleRate)) 0 [] b
        with ⟨resB, fsB⟩
      rw [hA, hB] at hind
      dsimp at hind
      cases hind
      cases resA with
      | error i => exact ⟨rfl, rfl, rfl⟩
      | ok chunks =>
        dsimp only
        rcases hrec : recognizeChunks env.asr chunks [] [] with ⟨res, calls⟩
        cases res with
        | error e => exact ⟨rfl, rfl, rfl⟩
        | ok texts => exact ⟨rfl, rfl, rfl⟩
  · simp only [if_neg hch]
    cases hasr : env.asr TPath.conv with
    | error e => exact ⟨rfl, rfl, rfl⟩
    | ok t => exact ⟨rfl, rfl, rfl⟩

/-- Every temp file registered by the post-conversion phase is the converted
file or a chunk file. -/
theorem postConv_temp_shape (env : PEnv) (S : MlSettings) (lang : Option String)
    (fs1 : FS) (hfresh : ∀ i, TPath.chunk i ∉ fs1) :
    ∀ p ∈ (transcribePostConv env S lang TPath.conv fs1).tempFiles,
      p = TPath.conv ∨ ∃ i, p = TPath.chunk i := by
  by_cases hch : env.duration > (S.chunkSizeSeconds : ℚ)
  · cases hload : env.loadOk with
    | false =>
      rw [postConv_load_fail env S lang fs1 hch hload]
      intro p hp
      simp at hp
      exact Or.inl hp
    | true =>
      by_cases hall : ∀ j, j < numChunks env.totalSamples
          (S.chunkSizeSeconds * S.sampleRate) → env.writeOk j = true
      · unfold transcribePostConv
        rw [if_pos hch, split_audio_ok env S fs1 hload hall]
        dsimp only
        rcases hrec : recognizeChunks env.asr
            ((List.range (numChunks env.totalSamples
              (S.chunkSizeSeconds * S.sampleRate))).map TPath.chunk) [] []
          with ⟨res, calls⟩
        have hshape : ∀ p, p ∈ TPath.conv :: ((List.range (numChunks env.totalSamples
            (S.chunkSizeSeconds * S.sampleRate))).map TPath.chunk) →
            p = TPath.conv ∨ ∃ i, p = TPath.chunk i := by
          intro p hp
          rcases List.mem_cons.mp hp with h | h
          · exact Or.inl h
          · obtain ⟨j, _, hj⟩ := List.mem_map.mp h
            exact Or.inr ⟨j, hj.symm⟩
        cases res with
        | error e => exact hshape
        | ok texts => exact hshape
      · push_neg at hall
        obtain ⟨j0, hj0n, hj0⟩ := hall
        have hex : ∃ j, env.writeOk j = false := ⟨j0, by simpa using hj0⟩
        have hwk : env.writeOk (Nat.find hex) = false := Nat.find_spec hex
        have hkn : Nat.find hex < numChunks env.totalSamples
            (S.chunkSizeSeconds * S.sampleRate) :=
          lt_of_le_of_lt (Nat.find_min' hex (by simpa using hj0)) hj0n
        have hmin : ∀ j, j < Nat.find hex → env.writeOk j = true := by
          intro j hj
          have hnot := Nat.find_min hex hj
          cases hwj : env.writeOk j with
          | false => exact absurd hwj hnot
          | true => rfl
        rw [postConv_split_fail env S lang fs1 (Nat.find hex) hch hload hkn hwk
            hmin hfresh]
        intro p hp
        simp at hp
        exact Or.inl hp
  · cases hasr : env.asr TPath.conv with
    | error e =>
      rw [postConv_direct_err env S lang fs1 e hch hasr]
      intro p hp
      simp at hp
      exact Or.inl hp
    | ok t =>
      rw [postConv_direct_ok env S lang fs1 t hch hasr]
      intro p hp
      simp at hp
      exact Or.inl hp

/-- Body outcome when the duration probe fails. -/
theorem body_probe_fail (env : PEnv) (S : MlSettings) (lang : Option String)
    (fs0 : FS) (hp : env.probeOk = false) :
    transcribeBody env S lang fs0 =
      ⟨Except.error (PyErr.audioProcessingError
          ("Failed to get audio duration: " ++ env.probeErr)), fs0, [], []⟩ := by
  unfold transcribeBody
  rw [if_neg (by simp [hp])]

/-- Body outcome on the too-long gate (checked first). -/
theorem body_too_long (env : PEnv) (S : MlSettings) (lang : Option String)
    (fs0 : FS) (hp : env.probeOk = true)
    (hl : env.duration > (S.maxAudioDurationSeconds : ℚ)) :
    transcribeBody env S lang fs0 =
      ⟨Except.error (PyErr.transcriptionError
          ("Audio too long. Maximum duration is " ++
            toString (S.maxAudioDurationSeconds / 60) ++ " minutes.")
          "AUDIO_TOO_LONG"), fs0, [], []⟩ := by
  unfold transcribeBody
  rw [if_pos hp, if_pos hl]

/-- Body outcome on the too-short gate. -/
theorem body_too_short (env : PEnv) (S : MlSettings) (lang : Option String)
    (fs0 : FS) (hp : env.probeOk = true)
    (hnl : ¬ env.duration > (S.maxAudioDurationSeconds : ℚ))
    (hs : env.duration < 1 / 10) :
    transcribeBody env S lang fs0 =
      ⟨Except.error (PyErr.transcriptionError
          "Audio file appears to be empty or too short."
          "AUDIO_TOO_SHORT"), fs0, [], []⟩ := by
  unfold transcribeBody
  rw [if_pos hp, if_neg hnl, if_pos hs]

/-- Body outcome when both transcoding strategies fail. -/
theorem body_conv_fail (env : PEnv) (S : MlSettings) (lang : Option String)
    (fs0 : FS) (hp : env.probeOk = true)
    (hnl : ¬ env.duration > (S.maxAudioDurationSeconds : ℚ))
    (hns : ¬ env.duration < 1 / 10)
    (hpy : env.pydubOk = false) (hlib : env.librosaOk = false) :
    transcribeBody env S lang fs0 =
      ⟨Except.error (PyErr.audioProcessingError
          ("Failed to convert audio: " ++ env.librosaErr)), fs0, [], []⟩ := by
  unfold transcribeBody
  rw [if_pos hp, if_neg hnl, if_neg hns]
  unfold convert_to_wav
  rw [if_neg (by simp [hpy]), if_neg (by simp [hlib])]

/-- Body outcome when conversion succeeds (either strategy): the converted
file is created, registered, and the post-conversion phase runs. -/
theorem body_conv_ok (env : PEnv) (S : MlSettings) (lang : Option String)
    (fs0 : FS) (hp : env.probeOk = true)
    (hnl : ¬ env.duration > (S.maxAudioDurationSeconds : ℚ))
    (hns : ¬ env.duration < 1 / 10)
    (hconv : env.pydubOk = true ∨ env.librosaOk = true) :
    transcribeBody env S lang fs0 =
      transcribePostConv env S lang TPath.conv (insert TPath.conv fs0) := by
  unfold transcribeBody
  rw [if_pos hp, if_neg hnl, if_neg hns]
  unfold convert_to_wav
  cases hpy : env.pydubOk with
  | true => simp [hpy]
  | false =>
    have hlib : env.librosaOk = true := by
      rcases hconv with h | h
      · rw [hpy] at h; exact absurd h (by simp)
      · exact h
    simp [hpy, hlib]

/-- Projection of `transcribe`: the reported result is the except-mapped body
result. -/
theorem transcribe_result_eq (env : PEnv) (S : MlSettings) (lang : Option String)
    (fs0 : FS) :
    (transcribe env S lang fs0).result =
      mapPipelineErr (transcribeBody env S lang fs0).res := rfl

/-- Projection of `transcribe`: the final filesystem is the body filesystem
after cleaning up the registered temp files. -/
theorem transcribe_fs_eq (env : PEnv) (S : MlSettings) (lang : Option String)
    (fs0 : FS) :
    (transcribe env S lang fs0).fs =
      cleanup_files (transcribeBody env S lang fs0).tempFiles
        (transcribeBody env S lang fs0).fs := rfl

/-- Projection of `transcribe`: the recognizer call trace of the body. -/
theorem transcribe_calls_eq (env : PEnv) (S : MlSettings) (lang : Option String)
    (fs0 : FS) :
    (transcribe env S lang fs0).asrCalls =
      (transcribeBody env S lang fs0).asrCalls := rfl

/-- The except mapping turns no error into a success. -/
theorem mapPipelineErr_ok_inv (x : Except PyErr TranscriptionResult)
    (r : TranscriptionResult) (h : mapPipelineErr x = Except.ok r) :
    x = Except.ok r := by
  cases x with
  | ok a => simpa [mapPipelineErr] using h
  | error e => cases e <;> simp [mapPipelineErr] at h

/-- A successful `transcribe` comes from a successful body. -/
theorem transcribe_ok_inv (env : PEnv) (S : MlSettings) (lang : Option String)
    (fs0 : FS) (r : TranscriptionResult)
    (h : (transcribe env S lang fs0).result = Except.ok r) :
    (transcribeBody env S lang fs0).res = Except.ok r := by
  rw [transcribe_result_eq] at h
  exact mapPipelineErr_ok_inv _ r h

/-- Shape of any successful post-conversion result: stripped text, the
language rule applied to the pre-strip text, the measured duration, and a
zero processing time. -/
theorem postConv_ok_shape (env : PEnv) (S : MlSettings) (lang : Option String)
    (fs1 : FS) (r : TranscriptionResult)
    (h : (transcribePostConv env S lang TPath.conv fs1).res = Except.ok r) :
    ∃ F n, r = ⟨pyStrip F, pipelineLanguage lang F, env.duration, n, 0⟩ := by
  unfold transcribePostConv at h
  by_cases hch : env.duration > (S.chunkSizeSeconds : ℚ)
  · rw [if_pos hch] at h
    rcases hsp : split_audio env S fs1 with ⟨res, fs2⟩
    rw [hsp] at h
    cases res with
    | error e => simp at h
    | ok chunks =>
      dsimp only at h
      rcases hrec : recognizeChunks env.asr chunks [] [] with ⟨res2, calls⟩
      rw [hrec] at h
      cases res2 with
      | error e => simp at h
      | ok texts =>
        dsimp only at h
        exact ⟨String.intercalate " " texts, chunks.length, (Except.ok.inj h).symm⟩
  · rw [if_neg hch] at h
    cases hasr : env.asr TPath.conv with
    | error e => rw [hasr] at h; simp at h
    | ok t =>
      rw [hasr] at h
      dsimp only at h
      exact ⟨t, 1, (Except.ok.inj h).symm⟩

/-- Shape of any successful run's result. -/
theorem body_ok_shape (env : PEnv) (S : MlSettings) (lang : Option String)
    (fs0 : FS) (r : TranscriptionResult)
    (h : (transcribeBody env S lang fs0).res = Except.ok r) :
    ∃ F n, r = ⟨pyStrip F, pipelineLanguage lang F, env.duration, n, 0⟩ := by
  cases hp : env.probeOk with
  | false => rw [body_probe_fail env S lang fs0 hp] at h; simp at h
  | true =>
    by_cases hl : env.duration > (S.maxAudioDurationSeconds : ℚ)
    · rw [body_too_long env S lang fs0 hp hl] at h; simp at h
    · by_cases hs : env.duration < 1 / 10
      · rw [body_too_short env S lang fs0 hp hl hs] at h; simp at h
      · cases hpy : env.pydubOk with
        | true =>
          rw [body_conv_ok env S lang fs0 hp hl hs (Or.inl hpy)] at h
          exact postConv_ok_shape env S lang _ r h
        | false =>
          cases hlib : env.librosaOk with
          | true =>
            rw [body_conv_ok env S lang fs0 hp hl hs (Or.inr hlib)] at h
            exact postConv_ok_shape env S lang _ r h
          | false =>
            rw [body_conv_fail env S lang fs0 hp hl hs hpy hlib] at h
            simp at h

/-- The chunk count covers all samples: `numChunks t cs * cs ≥ t`. -/
theorem numChunks_mul_ge (t cs : Nat) (hcs : 0 < cs) :
    t ≤ numChunks t cs * cs := by
  by_contra hcon
  push_neg at hcon
  set n := numChunks t cs with hn
  have hsucc : (n + 1) * cs = n * cs + cs := Nat.succ_mul _ _
  have h1 : (n + 1) * cs ≤ t + cs - 1 := by
    rw [hsucc]
    set A := n * cs with hA
    omega
  have h2 : n + 1 ≤ (t + cs - 1) / cs := (Nat.le_div_iff_mul_le hcs).mpr h1
  have h3 : numChunks t cs = (t + cs - 1) / cs := rfl
  omega

/-- The chunk count is minimal among covers: ceiling characterization. -/
theorem numChunks_min (t cs m : Nat) (hcs : 0 < cs) (h : t ≤ m * cs) :
    numChunks t cs ≤ m := by
  unfold numChunks
  rw [Nat.div_le_iff_le_mul_add_pred hcs]
  rw [Nat.mul_comm cs m]
  generalize hA : m * cs = A at *
  omega

/-- All but the final chunk boundary fall strictly inside the samples. -/
theorem numChunks_last_lt (t cs : Nat) (hcs : 0 < cs)
    (hpos : 0 < numChunks t cs) : (numChunks t cs - 1) * cs < t := by
  by_contra hcon
  push_neg at hcon
  have := numChunks_min t cs (numChunks t cs - 1) hcs hcon
  omega

/-- C2: for every canonical audio of `totalSamples` samples at sample rate
`sr` and every chunk duration `C` seconds, the chunker produces exactly
`⌈totalSamples / (C * sr)⌉` chunks (the length of `chunkRanges`, with the
ceiling characterized as the least cover); chunk `i` covers
`[i*C*sr, min((i+1)*C*sr, totalSamples))`; every non-last chunk is the full
`C*sr` samples and abuts the next chunk's start; the last chunk ends exactly
at `totalSamples`; every chunk is non-empty.  Hence the ranges are
contiguous, non-overlapping, and partition `[0, totalSamples)` exactly, with
only the last chunk possibly shorter. -/
theorem chunk_partition_spec (totalSamples C sr : Nat) (hC : 0 < C)
    (hsr : 0 < sr) :
    (chunkRanges totalSamples (C * sr)).length = numChunks totalSamples (C * sr)
    ∧ totalSamples ≤ numChunks totalSamples (C * sr) * (C * sr)
    ∧ (∀ m, totalSamples ≤ m * (C * sr) → numChunks totalSamples (C * sr) ≤ m)
    ∧ (∀ i, i < numChunks totalSamples (C * sr) →
        (chunkRanges totalSamples (C * sr))[i]? =
          some (i * (C * sr), min ((i + 1) * (C * sr)) totalSamples))
    ∧ (∀ i, i + 1 < numChunks totalSamples (C * sr) →
        (chunkRanges totalSamples (C * sr))[i]? =
          some (i * (C * sr), (i + 1) * (C * sr)))
    ∧ (∀ i, i + 1 < numChunks totalSamples (C * sr) →
        ((chunkRanges totalSamples (C * sr))[i]?).map Prod.snd =
          ((chunkRanges totalSamples (C * sr))[i + 1]?).map Prod.fst)
    ∧ (0 < numChunks totalSamples (C * sr) →
        (chunkRanges totalSamples (C * sr))[numChunks totalSamples (C * sr) - 1]? =
          some ((numChunks totalSamples (C * sr) - 1) * (C * sr), totalSamples))
    ∧ (∀ i, i < numChunks totalSamples (C * sr) →
        i * (C * sr) < min ((i + 1) * (C * sr)) totalSamples) := by
  have hcs : 0 < C * sr := Nat.mul_pos hC hsr
  have helt : ∀ i, i < numChunks totalSamples (C * sr) →
      (chunkRanges totalSamples (C * sr))[i]? =
        some (i * (C * sr), min ((i + 1) * (C * sr)) totalSamples) := by
    intro i hi
    simp [chunkRanges, List.getElem?_map, List.getElem?_range hi]
  have hinner : ∀ i, i + 1 < numChunks totalSamples (C * sr) →
      (i + 1) * (C * sr) < totalSamples := by
    intro i hi
    have hpos : 0 < numChunks totalSamples (C * sr) := by omega
    have h1 : i + 1 ≤ numChunks totalSamples (C * sr) - 1 := by omega
    calc (i + 1) * (C * sr)
        ≤ (numChunks totalSamples (C * sr) - 1) * (C * sr) :=
          Nat.mul_le_mul_right _ h1
      _ < totalSamples := numChunks_last_lt totalSamples (C * sr) hcs hpos
  have hstart : ∀ i, i < numChunks totalSamples (C * sr) →
      i * (C * sr) < totalSamples := by
    intro i hi
    have hpos : 0 < numChunks totalSamples (C * sr) := by omega
    have h1 : i ≤ numChunks totalSamples (C * sr) - 1 := by omega
    calc i * (C * sr)
        ≤ (numChunks totalSamples (C * sr) - 1) * (C * sr) :=
          Nat.mul_le_mul_right _ h1
      _ < totalSamples := numChunks_last_lt totalSamples (C * sr) hcs hpos
  refine ⟨by simp [chunkRanges], numChunks_mul_ge totalSamples (C * sr) hcs,
    fun m hm => numChunks_min totalSamples (C * sr) m hcs hm, helt, ?_, ?_, ?_, ?_⟩
  · intro i hi
    rw [helt i (by omega)]
    rw [Nat.min_eq_left (Nat.le_of_lt (hinner i hi))]
  · intro i hi
    rw [helt i (by omega), helt (i + 1) hi]
    rw [Nat.min_eq_left (Nat.le_of_lt (hinner i hi))]
    rfl
  · intro hpos
    rw [helt (numChunks totalSamples (C * sr) - 1) (by omega)]
    have h1 : numChunks totalSamples (C * sr) - 1 + 1 =
        numChunks totalSamples (C * sr) := by omega
    rw [h1, Nat.min_eq_right (numChunks_mul_ge totalSamples (C * sr) hcs)]
  · intro i hi
    rw [lt_min_iff]
    constructor
    · have := hcs
      calc i * (C * sr) < i * (C * sr) + (C * sr) := by omega
        _ = (i + 1) * (C * sr) := (Nat.succ_mul i (C * sr)).symm
    · exact hstart i hi

/-- C2 (witness): the 125 s / 60 s / 16 kHz example yields three chunks of
60 s, 60 s and 5 s. -/
theorem chunk_partition_witness :
    (0 : Nat) < 60 ∧ (0 : Nat) < 16000 ∧
      (chunkRanges 2000000 (60 * 16000)).length = numChunks 2000000 (60 * 16000) ∧
      numChunks 2000000 (60 * 16000) = 3 ∧
      chunkRanges 2000000 (60 * 16000) =
        [(0, 960000), (960000, 1920000), (1920000, 2000000)] := by
  refine ⟨by decide, by decide, (chunk_partition_spec 2000000 60 16000
    (by decide) (by decide)).1, by decide, by decide⟩

/-- C3: with the duration probe succeeding and a configured maximum of at
least 0.1 s (the default is 7200 s), the gate fails with `AUDIO_TOO_SHORT`
exactly when the measured duration is below 0.1 s and with `AUDIO_TOO_LONG`
exactly when it exceeds the maximum, in both cases before any conversion or
chunk artifact is created or registered (body filesystem and temp list
untouched); otherwise the run proceeds and any successful result carries the
measured duration unchanged. -/
theorem duration_gate_spec (env : PEnv) (S : MlSettings) (lang : Option String)
    (fs0 : FS) (hp : env.probeOk = true)
    (hmax : (1 : ℚ) / 10 ≤ (S.maxAudioDurationSeconds : ℚ)) :
    (env.duration < 1 / 10 →
      transcribeBody env S lang fs0 =
        ⟨Except.error (PyErr.transcriptionError
            "Audio file appears to be empty or too short." "AUDIO_TOO_SHORT"),
          fs0, [], []⟩ ∧
      (transcribe env S lang fs0).result =
        Except.error (PyErr.transcriptionError
          "Audio file appears to be empty or too short." "AUDIO_TOO_SHORT"))
    ∧ (env.duration > (S.maxAudioDurationSeconds : ℚ) →
      transcribeBody env S lang fs0 =
        ⟨Except.error (PyErr.transcriptionError
            ("Audio too long. Maximum duration is " ++
              toString (S.maxAudioDurationSeconds / 60) ++ " minutes.")
            "AUDIO_TOO_LONG"), fs0, [], []⟩ ∧
      (transcribe env S lang fs0).result =
        Except.error (PyErr.transcriptionError
          ("Audio too long. Maximum duration is " ++
            toString (S.maxAudioDurationSeconds / 60) ++ " minutes.")
          "AUDIO_TOO_LONG"))
    ∧ (∀ r, (transcribe env S lang fs0).result = Except.ok r →
        r.duration = env.duration) := by
  refine ⟨?_, ?_, ?_⟩
  · intro hs
    have hnl : ¬ env.duration > (S.maxAudioDurationSeconds : ℚ) :=
      not_lt.mpr (le_trans (le_of_lt hs) hmax)
    have hbody := body_too_short env S lang fs0 hp hnl hs
    refine ⟨hbody, ?_⟩
    rw [transcribe_result_eq, hbody]
    rfl
  · intro hl
    have hbody := body_too_long env S lang fs0 hp hl
    refine ⟨hbody, ?_⟩
    rw [transcribe_result_eq, hbody]
    rfl
  · intro r hr
    obtain ⟨F, n, hshape⟩ :=
      body_ok_shape env S lang fs0 r (transcribe_ok_inv env S lang fs0 r hr)
    rw [hshape]

/-- C3 (witness): duration 0.05 s yields `AUDIO_TOO_SHORT`; duration 9000 s
with maximum 7200 s yields `AUDIO_TOO_LONG`. -/
theorem duration_gate_witness :
    (transcribe envShort S0 none ∅).result =
      Except.error (PyErr.transcriptionError
        "Audio file appears to be empty or too short." "AUDIO_TOO_SHORT")
    ∧ (transcribe envLong S0 none ∅).result =
      Except.error (PyErr.transcriptionError
        "Audio too long. Maximum duration is 120 minutes." "AUDIO_TOO_LONG") := by
  have h1 := ((duration_gate_spec envShort S0 none ∅ rfl
    (by norm_num [S0])).1 (by norm_num [envShort, envDirect])).2
  have h2 := ((duration_gate_spec envLong S0 none ∅ rfl
    (by norm_num [S0])).2.1 (by norm_num [envLong, envDirect, S0])).2
  refine ⟨h1, ?_⟩
  rw [h2]
  decide

/-- C1: for every pipeline run, whatever the oracles decide (probe failure,
gate failure, conversion failure, split failure, recognizer failure or
success), the registered temp artifacts (converted WAV and chunk files,
which are fresh paths) are all deleted by the `finally` cleanup, the temp
directory afterwards equals its contents before the run, and the reported
result and recognizer calls are independent of the filesystem (deletions are
total in the model and absent paths are skipped, so cleanup can never alter
the run's outcome). -/
theorem temp_cleanup_spec (env : PEnv) (S : MlSettings) (lang : Option String)
    (fs0 : FS) (hc : TPath.conv ∉ fs0) (hch : ∀ i, TPath.chunk i ∉ fs0) :
    (transcribe env S lang fs0).fs = fs0
    ∧ (∀ p ∈ (transcribeBody env S lang fs0).tempFiles,
        p ∉ (transcribe env S lang fs0).fs)
    ∧ (∀ fs1, (transcribe env S lang fs1).result = (transcribe env S lang fs0).result
        ∧ (transcribe env S lang fs1).asrCalls = (transcribe env S lang fs0).asrCalls) := by
  have hfresh1 : ∀ i, TPath.chunk i ∉ insert TPath.conv fs0 := by
    intro i hmem
    rcases Finset.mem_insert.mp hmem with h | h
    · exact absurd h (by simp)
    · exact hch i h
  have hfs : (transcribe env S lang fs0).fs = fs0 := by
    rw [transcribe_fs_eq]
    cases hp : env.probeOk with
    | false => rw [body_probe_fail env S lang fs0 hp]; rfl
    | true =>
      by_cases hl : env.duration > (S.maxAudioDurationSeconds : ℚ)
      · rw [body_too_long env S lang fs0 hp hl]; rfl
      · by_cases hs : env.duration < 1 / 10
        · rw [body_too_short env S lang fs0 hp hl hs]; rfl
        · cases hpy : env.pydubOk with
          | true =>
            rw [body_conv_ok env S lang fs0 hp hl hs (Or.inl hpy)]
            rw [postConv_cleanup env S lang _ hfresh1]
            exact Finset.erase_insert hc
          | false =>
            cases hlib : env.librosaOk with
            | true =>
              rw [body_conv_ok env S lang fs0 hp hl hs (Or.inr hlib)]
              rw [postConv_cleanup env S lang _ hfresh1]
              exact Finset.erase_insert hc
            | false =>
              rw [body_conv_fail env S lang fs0 hp hl hs hpy hlib]; rfl
  have hshape : ∀ p ∈ (transcribeBody env S lang fs0).tempFiles,
      p = TPath.conv ∨ ∃ i, p = TPath.chunk i := by
    cases hp : env.probeOk with
    | false => rw [body_probe_fail env S lang fs0 hp]; intro p hp2; simp at hp2
    | true =>
      by_cases hl : env.duration > (S.maxAudioDurationSeconds : ℚ)
      · rw [body_too_long env S lang fs0 hp hl]; intro p hp2; simp at hp2
      · by_cases hs : env.duration < 1 / 10
        · rw [body_too_short env S lang fs0 hp hl hs]; intro p hp2; simp at hp2
        · cases hpy : env.pydubOk with
          | true =>
            rw [body_conv_ok env S lang fs0 hp hl hs (Or.inl hpy)]
            exact postConv_temp_shape env S lang _ hfresh1
          | false =>
            cases hlib : env.librosaOk with
            | true =>
              rw [body_conv_ok env S lang fs0 hp hl hs (Or.inr hlib)]
              exact postConv_temp_shape env S lang _ hfresh1
            | false =>
              rw [body_conv_fail env S lang fs0 hp hl hs hpy hlib]
              intro p hp2; simp at hp2
  have hindep : ∀ fs1,
      (transcribeBody env S lang fs1).res = (transcribeBody env S lang fs0).res
      ∧ (transcribeBody env S lang fs1).asrCalls =
        (transcribeBody env S lang fs0).asrCalls := by
    intro fs1
    cases hp : env.probeOk with
    | false =>
      rw [body_probe_fail env S lang fs1 hp, body_probe_fail env S lang fs0 hp]
      exact ⟨rfl, rfl⟩
    | true =>
      by_cases hl : env.duration > (S.maxAudioDurationSeconds : ℚ)
      · rw [body_too_long env S lang fs1 hp hl, body_too_long env S lang fs0 hp hl]
        exact ⟨rfl, rfl⟩
      · by_cases hs : env.duration < 1 / 10
        · rw [body_too_short env S lang fs1 hp hl hs,
            body_too_short env S lang fs0 hp hl hs]
          exact ⟨rfl, rfl⟩
        · cases hpy : env.pydubOk with
          | true =>
            rw [body_conv_ok env S lang fs1 hp hl hs (Or.inl hpy),
              body_conv_ok env S lang fs0 hp hl hs (Or.inl hpy)]
            exact ⟨(postConv_indep env S lang _ _).1,
              (postConv_indep env S lang _ _).2.2⟩
          | false =>
            cases hlib : env.librosaOk with
            | true =>
              rw [body_conv_ok env S lang fs1 hp hl hs (Or.inr hlib),
                body_conv_ok env S lang fs0 hp hl hs (Or.inr hlib)]
              exact ⟨(postConv_indep env S lang _ _).1,
                (postConv_indep env S lang _ _).2.2⟩
            | false =>
              rw [body_conv_fail env S lang fs1 hp hl hs hpy hlib,
                body_conv_fail env S lang fs0 hp hl hs hpy hlib]
              exact ⟨rfl, rfl⟩
  refine ⟨hfs, ?_, ?_⟩
  · intro p hp2
    rw [hfs]
    rcases hshape p hp2 with h | ⟨i, h⟩
    · rw [h]; exact hc
    · rw [h]; exact hch i
  · intro fs1
    constructor
    · rw [transcribe_result_eq, transcribe_result_eq, (hindep fs1).1]
    · rw [transcribe_calls_eq, transcribe_calls_eq, (hindep fs1).2]

/-- C1 (witness): a concrete successful run over a temp directory holding
only the uploaded source file leaves the directory unchanged. -/
theorem temp_cleanup_witness :
    (transcribe envDirect S0 none {TPath.src}).fs = {TPath.src} :=
  (temp_cleanup_spec envDirect S0 none {TPath.src} (by decide)
    (fun i h => by simp at h)).1

/-- The exact-rational ratio test agrees with its division-free form. -/
theorem detectLanguage_eq_nat (text : String) :
    detectLanguage text = detectLanguageNat text := by
  unfold detectLanguage detectLanguageNat
  by_cases h0 : text = ""
  · rw [if_pos h0, if_pos h0]
  · rw [if_neg h0, if_neg h0]
    set c := (text.toList.filter isCyrillicChar).length with hc0
    set a := (text.toList.filter pyIsAlpha).length with ha0
    by_cases ha : a = 0
    · rw [if_pos ha, if_pos ha]
    · rw [if_neg ha, if_neg ha]
      have hpos : 0 < a := Nat.pos_of_ne_zero ha
      have hiff : ((3 : ℚ) / 10 < (c : ℚ) / (a : ℚ)) ↔ 3 * a < 10 * c := by
        rw [div_lt_div_iff₀ (by norm_num : (0 : ℚ) < 10)
          (by exact_mod_cast hpos), mul_comm (c : ℚ) 10]
        exact_mod_cast Iff.rfl
      by_cases hlt : (3 : ℚ) / 10 < (c : ℚ) / (a : ℚ)
      · rw [if_pos hlt, if_pos (hiff.mp hlt)]
      · rw [if_neg hlt, if_neg (fun hcon => hlt (hiff.mpr hcon))]

/-- C4 (amended): when the primary (pydub) strategy fails the converter
always attempts the secondary (librosa) strategy; when both fail the run
fails with error code `AUDIO_PROCESSING_ERROR` (not `CONVERSION_FAILED`)
whose message carries the secondary failure's detail, and no chunk artifact
exists afterwards (the temp directory is exactly its pre-run state). -/
theorem conversion_fallback_amended (env : PEnv) (S : MlSettings)
    (lang : Option String) (fs0 : FS)
    (hp : env.probeOk = true)
    (hnl : ¬ env.duration > (S.maxAudioDurationSeconds : ℚ))
    (hns : ¬ env.duration < 1 / 10)
    (hpy : env.pydubOk = false)
    (hch : ∀ i, TPath.chunk i ∉ fs0) :
    (convert_to_wav env fs0).2.2 = [ConvStrategy.pydub, ConvStrategy.librosa]
    ∧ (env.librosaOk = false →
        (transcribe env S lang fs0).result =
          Except.error (PyErr.transcriptionError
            ("Failed to convert audio: " ++ env.librosaErr)
            "AUDIO_PROCESSING_ERROR")
        ∧ (transcribe env S lang fs0).fs = fs0
        ∧ ∀ i, TPath.chunk i ∉ (transcribe env S lang fs0).fs) := by
  constructor
  · unfold convert_to_wav
    rw [if_neg (by simp [hpy])]
    cases env.librosaOk <;> rfl
  · intro hlib
    have hbody := body_conv_fail env S lang fs0 hp hnl hns hpy hlib
    refine ⟨?_, ?_, ?_⟩
    · rw [transcribe_result_eq, hbody]; rfl
    · rw [transcribe_fs_eq, hbody]; rfl
    · intro i
      rw [transcribe_fs_eq, hbody]
      exact hch i

/-- C4 (counterexample): on a concrete run where both strategies fail, the
reported error code is `AUDIO_PROCESSING_ERROR`, not `CONVERSION_FAILED` as
the claim states. -/
theorem conversion_fallback_counterexample :
    (transcribe envConvFail S0 none ∅).result =
      Except.error (PyErr.transcriptionError
        "Failed to convert audio: codec error" "AUDIO_PROCESSING_ERROR")
    ∧ (errorResponse (PyErr.transcriptionError
        "Failed to convert audio: codec error" "AUDIO_PROCESSING_ERROR")).code =
      "AUDIO_PROCESSING_ERROR"
    ∧ "AUDIO_PROCESSING_ERROR" ≠ "CONVERSION_FAILED" := by
  refine ⟨?_, rfl, by decide⟩
  rw [transcribe_result_eq, body_conv_fail envConvFail S0 none ∅ rfl
    (by norm_num [envConvFail, envDirect, S0])
    (by norm_num [envConvFail, envDirect]) rfl rfl]
  decide

/-- C4 (witness): the amended claim at a concrete double-failure run. -/
theorem conversion_fallback_witness :
    (transcribe envConvFail S0 none ∅).fs = ∅
    ∧ (convert_to_wav envConvFail ∅).2.2 =
        [ConvStrategy.pydub, ConvStrategy.librosa] := by
  have h := conversion_fallback_amended envConvFail S0 none ∅ rfl
    (by norm_num [envConvFail, envDirect, S0])
    (by norm_num [envConvFail, envDirect]) rfl (fun i h => by simp at h)
  exact ⟨(h.2 rfl).2.1, h.1⟩

/-- C8 (amended): an unexpected exception raised inside the pipeline (a
recognizer failure on the direct path, or on any chunk of the chunked path)
is caught by `transcribe`'s top-level handler and re-reported as a
`TranscriptionError` with code `TRANSCRIPTION_FAILED` whose message is the
generic prefix "Failed to transcribe audio: " followed by the exception
detail; the HTTP layer surfaces exactly that code and message with status
500 and no further internal state.  (`INTERNAL_ERROR` is produced only by
`main`'s handler for exceptions outside the pipeline.) -/
theorem unexpected_error_amended (env : PEnv) (S : MlSettings)
    (lang : Option String) (fs0 : FS) (e : String)
    (hp : env.probeOk = true)
    (hnl : ¬ env.duration > (S.maxAudioDurationSeconds : ℚ))
    (hns : ¬ env.duration < 1 / 10)
    (hconv : env.pydubOk = true ∨ env.librosaOk = true) :
    (¬ env.duration > (S.chunkSizeSeconds : ℚ) →
      env.asr TPath.conv = Except.error e →
      (transcribe env S lang fs0).result =
        Except.error (PyErr.transcriptionError
          ("Failed to transcribe audio: " ++ e) "TRANSCRIPTION_FAILED")
      ∧ errorResponse (PyErr.transcriptionError
          ("Failed to transcribe audio: " ++ e) "TRANSCRIPTION_FAILED") =
        ⟨500, "TRANSCRIPTION_FAILED", "Failed to transcribe audio: " ++ e, none⟩)
    ∧ (∀ ts : Nat → String, ∀ k : Nat,
        env.duration > (S.chunkSizeSeconds : ℚ) → env.loadOk = true →
        (∀ j, env.writeOk j = true) →
        (∀ i, i < k → env.asr (TPath.chunk i) = Except.ok (ts i)) →
        k < numChunks env.totalSamples (S.chunkSizeSeconds * S.sampleRate) →
        env.asr (TPath.chunk k) = Except.error e →
        (transcribe env S lang fs0).result =
          Except.error (PyErr.transcriptionError
            ("Failed to transcribe audio: " ++ e) "TRANSCRIPTION_FAILED")) := by
  constructor
  · intro hdir hasr
    have hbody := (body_conv_ok env S lang fs0 hp hnl hns hconv).trans
      (postConv_direct_err env S lang (insert TPath.conv fs0) e hdir hasr)
    refine ⟨?_, rfl⟩
    rw [transcribe_result_eq, hbody]
    rfl
  · intro ts k hchk hload hw hpre hk herr
    have hbody := (body_conv_ok env S lang fs0 hp hnl hns hconv).trans
      (postConv_chunked_asr_err env S lang (insert TPath.conv fs0) ts k e hchk
        hload hw hpre hk herr)
    rw [transcribe_result_eq, hbody]
    rfl

/-- C8 (counterexample): a concrete run in which the recognizer raises is
reported with code `TRANSCRIPTION_FAILED`, not `InternalError` /
`INTERNAL_ERROR` as the claim states. -/
theorem unexpected_error_counterexample :
    (transcribe envAsrFail S0 none ∅).result =
      Except.error (PyErr.transcriptionError
        "Failed to transcribe audio: boom" "TRANSCRIPTION_FAILED")
    ∧ (errorResponse (PyErr.transcriptionError
        "Failed to transcribe audio: boom" "TRANSCRIPTION_FAILED")).code =
      "TRANSCRIPTION_FAILED"
    ∧ "TRANSCRIPTION_FAILED" ≠ "INTERNAL_ERROR"
    ∧ "TRANSCRIPTION_FAILED" ≠ "InternalError" := by
  refine ⟨?_, rfl, by decide, by decide⟩
  rw [transcribe_result_eq, (body_conv_ok envAsrFail S0 none ∅ rfl
      (by norm_num [envAsrFail, envDirect, S0])
      (by norm_num [envAsrFail, envDirect]) (Or.inl rfl)).trans
    (postConv_direct_err envAsrFail S0 none (insert TPath.conv ∅) "boom"
      (by norm_num [envAsrFail, envDirect, S0]) rfl)]
  decide

/-- C8 (witness): the amended claim at a concrete recognizer failure. -/
theorem unexpected_error_witness :
    (transcribe envAsrFail S0 none ∅).result =
      Except.error (PyErr.transcriptionError
        "Failed to transcribe audio: boom" "TRANSCRIPTION_FAILED") := by
  have h := (((unexpected_error_amended envAsrFail S0 none ∅ "boom" rfl
    (by norm_num [envAsrFail, envDirect, S0])
    (by norm_num [envAsrFail, envDirect]) (Or.inl rfl)).1
    (by norm_num [envAsrFail, envDirect, S0]) rfl)).1
  rw [h]
  decide

/-- C9: on a fully successful run, chunking happens exactly when the
measured duration strictly exceeds the configured chunk-size threshold:
otherwise the converted audio is recognized in a single call and
`chunks_processed = 1`; when it does, `chunks_processed` equals the number
of chunks produced and the chunks are recognized one at a time in index
order. -/
theorem chunk_decision_spec (env : PEnv) (S : MlSettings) (lang : Option String)
    (fs0 : FS) (ts : Nat → String) (t0 : String)
    (hp : env.probeOk = true)
    (hnl : ¬ env.duration > (S.maxAudioDurationSeconds : ℚ))
    (hns : ¬ env.duration < 1 / 10)
    (hconv : env.pydubOk = true ∨ env.librosaOk = true)
    (hload : env.loadOk = true)
    (hw : ∀ j, env.writeOk j = true)
    (hasrC : env.asr TPath.conv = Except.ok t0)
    (hasrK : ∀ i, env.asr (TPath.chunk i) = Except.ok (ts i)) :
    (¬ env.duration > (S.chunkSizeSeconds : ℚ) →
      ∃ r, (transcribe env S lang fs0).result = Except.ok r
        ∧ r.chunksProcessed = 1
        ∧ (transcribe env S lang fs0).asrCalls = [TPath.conv])
    ∧ (env.duration > (S.chunkSizeSeconds : ℚ) →
      ∃ r, (transcribe env S lang fs0).result = Except.ok r
        ∧ r.chunksProcessed =
            numChunks env.totalSamples (S.chunkSizeSeconds * S.sampleRate)
        ∧ (transcribe env S lang fs0).asrCalls =
            (List.range (numChunks env.totalSamples
              (S.chunkSizeSeconds * S.sampleRate))).map TPath.chunk) := by
  constructor
  · intro hdir
    have hbody := (body_conv_ok env S lang fs0 hp hnl hns hconv).trans
      (postConv_direct_ok env S lang (insert TPath.conv fs0) t0 hdir hasrC)
    refine ⟨⟨pyStrip t0, pipelineLanguage lang t0, env.duration, 1, 0⟩,
      ?_, rfl, ?_⟩
    · rw [transcribe_result_eq, hbody]; rfl
    · rw [transcribe_calls_eq, hbody]
  · intro hchk
    have hbody := (body_conv_ok env S lang fs0 hp hnl hns hconv).trans
      (postConv_chunked_ok env S lang (insert TPath.conv fs0) ts hchk hload hw
        hasrK)
    refine ⟨⟨pyStrip (String.intercalate " "
        (((List.range (numChunks env.totalSamples
          (S.chunkSizeSeconds * S.sampleRate))).map ts).filter (fun t => t ≠ ""))),
      pipelineLanguage lang (String.intercalate " "
        (((List.range (numChunks env.totalSamples
          (S.chunkSizeSeconds * S.sampleRate))).map ts).filter (fun t => t ≠ ""))),
      env.duration,
      numChunks env.totalSamples (S.chunkSizeSeconds * S.sampleRate), 0⟩,
      ?_, rfl, ?_⟩
    · rw [transcribe_result_eq, hbody]; rfl
    · rw [transcribe_calls_eq, hbody]

/-- C9 (witness): the 5 s run is recognized directly in one call with
`chunks_processed = 1`; the 125 s run is split into 3 chunks recognized in
index order with `chunks_processed = 3`. -/
theorem chunk_decision_witness :
    (transcribe envDirect S0 none ∅).asrCalls = [TPath.conv]
    ∧ (transcribe envChunked S0 none ∅).asrCalls =
        [TPath.chunk 0, TPath.chunk 1, TPath.chunk 2]
    ∧ (transcribe envDirect S0 none ∅).result =
        Except.ok ⟨"hi", "en", 5, 1, 0⟩
    ∧ (transcribe envChunked S0 none ∅).result =
        Except.ok ⟨"hello world", "en", 125, 3, 0⟩ := by
  have hts : ∀ i, asrW (TPath.chunk i) = Except.ok (tsW i) := by
    intro i
    rcases i with _ | _ | _ | i <;> rfl
  have hA := (chunk_decision_spec envDirect S0 none ∅ tsW "hi" rfl
    (by norm_num [envDirect, S0]) (by norm_num [envDirect]) (Or.inl rfl)
    rfl (fun j => rfl) rfl hts).1 (by norm_num [envDirect, S0])
  have hB := (chunk_decision_spec envChunked S0 none ∅ tsW "hi" rfl
    (by norm_num [envChunked, envDirect, S0])
    (by norm_num [envChunked, envDirect]) (Or.inl rfl)
    rfl (fun j => rfl) rfl hts).2 (by norm_num [envChunked, envDirect, S0])
  obtain ⟨rA, hresA, hcpA, hcallsA⟩ := hA
  obtain ⟨rB, hresB, hcpB, hcallsB⟩ := hB
  refine ⟨hcallsA, ?_, ?_, ?_⟩
  · rw [hcallsB]; decide
  · rw [hresA]
    have hbodyA := (body_conv_ok envDirect S0 none ∅ rfl
      (by norm_num [envDirect, S0]) (by norm_num [envDirect]) (Or.inl rfl)).trans
      (postConv_direct_ok envDirect S0 none (insert TPath.conv ∅) "hi"
        (by norm_num [envDirect, S0]) rfl)
    have hresA2 := hresA
    rw [transcribe_result_eq, hbodyA] at hresA2
    have hrA : rA = ⟨pyStrip "hi", pipelineLanguage none "hi",
        envDirect.duration, 1, 0⟩ := (Except.ok.inj hresA2).symm
    rw [hrA]
    simp only [pipelineLanguage, detectLanguage_eq_nat]
    decide
  · rw [hresB]
    have hbodyB := (body_conv_ok envChunked S0 none ∅ rfl
      (by norm_num [envChunked, envDirect, S0])
      (by norm_num [envChunked, envDirect]) (Or.inl rfl)).trans
      (postConv_chunked_ok envChunked S0 none (insert TPath.conv ∅) tsW
        (by norm_num [envChunked, envDirect, S0]) rfl (fun j => rfl) hts)
    have hresB2 := hresB
    rw [transcribe_result_eq, hbodyB] at hresB2
    have hrB := (Except.ok.inj hresB2).symm
    rw [hrB]
    simp only [pipelineLanguage, detectLanguage_eq_nat]
    decide

/-- C7: when materializing chunk `k` fails (all earlier writes having
succeeded), `split_audio` deletes every chunk artifact created earlier in
the call before the chunking error propagates: the filesystem is exactly
its entry state and no chunk file remains. -/
theorem split_cleanup_spec (env : PEnv) (S : MlSettings) (fs : FS)
    (hload : env.loadOk = true) (k : Nat)
    (hk : k < numChunks env.totalSamples (S.chunkSizeSeconds * S.sampleRate))
    (hwk : env.writeOk k = false)
    (hmin : ∀ j, j < k → env.writeOk j = true)
    (hfresh : ∀ j, TPath.chunk j ∉ fs) :
    split_audio env S fs =
      (Except.error (PyErr.audioProcessingError
        ("Failed to split audio: " ++ env.writeErr k)), fs)
    ∧ ∀ j, TPath.chunk j ∉ (split_audio env S fs).2 := by
  have h := split_audio_fail_restores env S fs hload k hk hwk hmin hfresh
  exact ⟨h, fun j => by rw [h]; exact hfresh j⟩

/-- C7 (witness): a concrete split in which writing chunk 2 of 3 fails
restores the empty temp state and propagates the write failure's detail. -/
theorem split_cleanup_witness :
    split_audio envSplitFail S0 ∅ =
      (Except.error (PyErr.audioProcessingError
        "Failed to split audio: disk full"), ∅) := by
  have h := (split_cleanup_spec envSplitFail S0 ∅ rfl 2 (by decide) rfl
    (by
      intro j hj
      rcases j with _ | _ | j
      · rfl
      · rfl
      · omega)
    (fun j h => by simp at h)).1
  rw [h]
  decide

/-- Looking up a freshly appended path finds its bytes. -/
theorem fsLookup_append_self (store : List (String × List Nat)) (p : String)
    (content : List Nat) (h : p ∉ store.map Prod.fst) :
    fsLookup p (store ++ [(p, content)]) = some content := by
  induction store with
  | nil => simp [fsLookup]
  | cons a store ih =>
    obtain ⟨q, c⟩ := a
    simp only [List.map_cons, List.mem_cons, not_or] at h
    have hfs : fsLookup p ((q, c) :: (store ++ [(p, content)])) =
        if q = p then some c else fsLookup p (store ++ [(p, content)]) := rfl
    rw [List.cons_append, hfs, if_neg (fun hqp => h.1 hqp.symm), ih h.2]

/-- A non-empty string stays non-empty under the ASCII lowercase map. -/
theorem pyLower_ne_empty (s : String) (h : s ≠ "") : pyLower s ≠ "" := by
  intro hcon
  apply h
  have hdata : s.toList.map Char.toLower = [] := by
    have h2 := congrArg String.toList hcon
    simpa [pyLower] using h2
  have hnil : s.toList = [] := List.map_eq_nil_iff.mp hdata
  cases s with
  | mk data =>
    simp only [String.toList] at hnil
    simp [hnil]

/-- C10: `save_upload` appends exactly one file to the temp store, at the
path `temp_dir / (uuid ++ ext)` where `ext` is the lowercased extension of
the original filename, defaulting to ".wav" when the filename has none; the
returned path is the written path, and (the UUID name being fresh) looking
it up yields exactly the bytes read from the uploaded file object. -/
theorem save_upload_spec (tempDir uuid : String) (content : List Nat)
    (filename : String) (store : List (String × List Nat)) :
    (save_upload tempDir uuid content filename store).1 =
      store ++ [((save_upload tempDir uuid content filename store).2, content)]
    ∧ (pySuffix filename = "" →
        (save_upload tempDir uuid content filename store).2 =
          tempDir ++ "/" ++ (uuid ++ ".wav"))
    ∧ (pySuffix filename ≠ "" →
        (save_upload tempDir uuid content filename store).2 =
          tempDir ++ "/" ++ (uuid ++ pyLower (pySuffix filename)))
    ∧ ((save_upload tempDir uuid content filename store).2 ∉
          store.map Prod.fst →
        fsLookup (save_upload tempDir uuid content filename store).2
          (save_upload tempDir uuid content filename store).1 = some content) := by
  refine ⟨rfl, ?_, ?_, ?_⟩
  · intro h
    unfold save_upload
    dsimp only
    rw [h]
    rfl
  · intro h
    unfold save_upload
    dsimp only
    rw [if_neg (pyLower_ne_empty (pySuffix filename) h)]
  · intro hnot
    exact fsLookup_append_self store _ content hnot

/-- C10 (witness): uploading bytes `[1,2,3]` under the name "Song.MP3" with
UUID "u1" writes them to "/tmp/u1.mp3" (lowercased extension) and returns
that path. -/
theorem save_upload_witness :
    (save_upload "/tmp" "u1" [1, 2, 3] "Song.MP3" []).1 =
      [] ++ [((save_upload "/tmp" "u1" [1, 2, 3] "Song.MP3" []).2, [1, 2, 3])]
    ∧ (save_upload "/tmp" "u1" [1, 2, 3] "Song.MP3" []).2 =
        "/tmp" ++ "/" ++ ("u1" ++ pyLower (pySuffix "Song.MP3"))
    ∧ fsLookup (save_upload "/tmp" "u1" [1, 2, 3] "Song.MP3" []).2
        (save_upload "/tmp" "u1" [1, 2, 3] "Song.MP3" []).1 = some [1, 2, 3]
    ∧ (save_upload "/tmp" "u1" [1, 2, 3] "Song.MP3" []).2 = "/tmp/u1.mp3" := by
  have h := save_upload_spec "/tmp" "u1" [1, 2, 3] "Song.MP3" []
  exact ⟨h.1, h.2.2.1 (by decide), h.2.2.2 (by decide), by decide⟩

/-- C6: on a successful chunked run whose recognizer delivers text `ts i`
for chunk `i`, the assembled result text is exactly the non-empty chunk
texts, in index order, joined by single spaces, with leading/trailing
whitespace trimmed; empty chunk texts are skipped and do not make the run
fail. -/
theorem assembly_join_spec (env : PEnv) (S : MlSettings) (lang : Option String)
    (fs0 : FS) (ts : Nat → String)
    (hp : env.probeOk = true)
    (hnl : ¬ env.duration > (S.maxAudioDurationSeconds : ℚ))
    (hns : ¬ env.duration < 1 / 10)
    (hconv : env.pydubOk = true ∨ env.librosaOk = true)
    (hchk : env.duration > (S.chunkSizeSeconds : ℚ))
    (hload : env.loadOk = true)
    (hw : ∀ j, env.writeOk j = true)
    (hasrK : ∀ i, env.asr (TPath.chunk i) = Except.ok (ts i)) :
    ∃ r, (transcribe env S lang fs0).result = Except.ok r
      ∧ r.text = pyStrip (String.intercalate " "
          (((List.range (numChunks env.totalSamples
            (S.chunkSizeSeconds * S.sampleRate))).map ts).filter
            (fun t => t ≠ ""))) := by
  have hbody := (body_conv_ok env S lang fs0 hp hnl hns hconv).trans
    (postConv_chunked_ok env S lang (insert TPath.conv fs0) ts hchk hload hw
      hasrK)
  refine ⟨⟨pyStrip (String.intercalate " "
      (((List.range (numChunks env.totalSamples
        (S.chunkSizeSeconds * S.sampleRate))).map ts).filter (fun t => t ≠ ""))),
    pipelineLanguage lang (String.intercalate " "
      (((List.range (numChunks env.totalSamples
        (S.chunkSizeSeconds * S.sampleRate))).map ts).filter (fun t => t ≠ ""))),
    env.duration,
    numChunks env.totalSamples (S.chunkSizeSeconds * S.sampleRate), 0⟩, ?_, rfl⟩
  rw [transcribe_result_eq, hbody]
  rfl

/-- C6 (witness): a 3-chunk run with texts "hello", "" and "world"
assembles to "hello world" — the empty chunk is skipped without error. -/
theorem assembly_join_witness :
    (transcribe envChunked S0 none ∅).result =
      Except.ok ⟨"hello world", "en", 125, 3, 0⟩
    ∧ "hello world" = pyStrip (String.intercalate " "
        (((List.range (numChunks envChunked.totalSamples
          (S0.chunkSizeSeconds * S0.sampleRate))).map tsW).filter
          (fun t => t ≠ ""))) := by
  have hts : ∀ i, asrW (TPath.chunk i) = Except.ok (tsW i) := by
    intro i
    rcases i with _ | _ | _ | i <;> rfl
  have hbodyB := (body_conv_ok envChunked S0 none ∅ rfl
    (by norm_num [envChunked, envDirect, S0])
    (by norm_num [envChunked, envDirect]) (Or.inl rfl)).trans
    (postConv_chunked_ok envChunked S0 none (insert TPath.conv ∅) tsW
      (by norm_num [envChunked, envDirect, S0]) rfl (fun j => rfl) hts)
  have hexp : (transcribe envChunked S0 none ∅).result =
      Except.ok ⟨"hello world", "en", 125, 3, 0⟩ := by
    rw [transcribe_result_eq, hbodyB]
    simp only [pipelineLanguage, detectLanguage_eq_nat]
    decide
  refine ⟨hexp, ?_⟩
  obtain ⟨r, hres, htext⟩ := assembly_join_spec envChunked S0 none ∅ tsW rfl
    (by norm_num [envChunked, envDirect, S0])
    (by norm_num [envChunked, envDirect]) (Or.inl rfl)
    (by norm_num [envChunked, envDirect, S0]) rfl (fun j => rfl) hts
  rw [hres] at hexp
  have hr := Except.ok.inj hexp
  rw [← htext, hr]

/-- C5: the code's language rule matches the spec's: a non-empty caller
override is returned verbatim for any successful run; otherwise the language
is computed from the assembled (pre-trim) text as "en" when it has no
alphabetic code points, "ru" when the Cyrillic-to-alphabetic ratio exceeds
0.3, and "en" otherwise; 'привет как дела' classifies as "ru" and
'hello world' as "en". -/
theorem language_heuristic_spec :
    (∀ text, detectLanguage text = detectLanguageSpec text)
    ∧ detectLanguage "привет как дела" = "ru"
    ∧ detectLanguage "hello world" = "en"
    ∧ (∀ (env : PEnv) (S : MlSettings) (lang : Option String) (fs0 : FS)
        (r : TranscriptionResult) (l : String),
        (transcribe env S lang fs0).result = Except.ok r →
        lang = some l → l ≠ "" → r.language = l)
    ∧ (∀ (env : PEnv) (S : MlSettings) (lang : Option String) (fs0 : FS)
        (r : TranscriptionResult),
        (transcribe env S lang fs0).result = Except.ok r →
        (lang = none ∨ lang = some "") →
        ∃ t, r.text = pyStrip t ∧ r.language = detectLanguageSpec t) := by
  have heq : ∀ text, detectLanguage text = detectLanguageSpec text := by
    intro text
    by_cases h0 : text = ""
    · subst h0
      decide
    · unfold detectLanguage detectLanguageSpec
      rw [if_neg h0]
  refine ⟨heq, ?_, ?_, ?_, ?_⟩
  · rw [detectLanguage_eq_nat]
    decide
  · rw [detectLanguage_eq_nat]
    decide
  · intro env S lang fs0 r l hres hlang hne
    obtain ⟨F, n, hr⟩ :=
      body_ok_shape env S lang fs0 r (transcribe_ok_inv env S lang fs0 r hres)
    subst hlang
    rw [hr]
    simp only [pipelineLanguage]
    rw [if_neg hne]
  · intro env S lang fs0 r hres hl
    obtain ⟨F, n, hr⟩ :=
      body_ok_shape env S lang fs0 r (transcribe_ok_inv env S lang fs0 r hres)
    refine ⟨F, by rw [hr], ?_⟩
    rw [hr]
    rcases hl with h | h
    · subst h
      simp only [pipelineLanguage]
      exact heq F
    · subst h
      simp only [pipelineLanguage, if_pos rfl]
      exact heq F

/-- C5 (witness): a successful run with override "fr" returns language "fr"
verbatim, and the heuristic classifies the Cyrillic sample as "ru". -/
theorem language_heuristic_witness :
    (transcribe envDirect S0 (some "fr") ∅).result =
      Except.ok ⟨"hi", "fr", 5, 1, 0⟩
    ∧ (⟨"hi", "fr", (5 : ℚ), 1, 0⟩ : TranscriptionResult).language = "fr"
    ∧ detectLanguage "привет как дела" = "ru" := by
  have hexp : (transcribe envDirect S0 (some "fr") ∅).result =
      Except.ok ⟨"hi", "fr", 5, 1, 0⟩ := by
    have hbody := (body_conv_ok envDirect S0 (some "fr") ∅ rfl
      (by norm_num [envDirect, S0]) (by norm_num [envDirect]) (Or.inl rfl)).trans
      (postConv_direct_ok envDirect S0 (some "fr") (insert TPath.conv ∅) "hi"
        (by norm_num [envDirect, S0]) rfl)
    rw [transcribe_result_eq, hbody]
    decide
  refine ⟨hexp, ?_, language_heuristic_spec.2.1⟩
  exact language_heuristic_spec.2.2.2.1 envDirect S0 (some "fr") ∅
    ⟨"hi", "fr", 5, 1, 0⟩ "fr" hexp rfl (by decide)
